import Mathlib

/-!
Verification of the BESS financial model engine.

Shallow embedding of the repository's financial simulation engine
(`src/engine.py`, `src/derived.py`, `src/kpis.py`, `src/models.py`).
Python floats are modelled as exact rationals (`ℚ`), year indices as `ℕ`.
-/

set_option maxHeartbeats 1000000

namespace BessModel

/-- Amortization style, the `amortization_type` literal of `models.py`. -/
inductive AmortType where
  | annuity
  | equal_principal
deriving DecidableEq, Repr

/-- Floor revenue mechanism, the `floor_type` literal of `models.py`. -/
inductive FloorType where
  | CM
  | MACSE
deriving DecidableEq, Repr

/-- `ProjectData` of `models.py` (fields only; field-level range validation
happens at the input boundary and is carried as hypotheses where needed). -/
structure ProjectData where
  project_life : ℕ
  nominal_power_mw : ℚ
  nominal_energy_mwh : ℚ
  degradation_rate : ℚ
  cycles_per_day : ℚ
  soc_min : ℚ
  soc_max : ℚ
  grid_system_unavailability : ℚ
deriving DecidableEq, Repr

/-- `CapexOpex` of `models.py`. The model has no `land_cost_eur` field, so the
engine's `getattr(cx, "land_cost_eur", 0.0)` always yields `0.0`. -/
structure CapexOpex where
  initial_capex_per_mw : ℚ
  battery_share_of_capex : ℚ
  augmentation_cost_pct_of_batt_capex : ℚ
  augmentation_year_1 : ℕ
  augmentation_year_2 : ℕ
  fixed_om_per_mw_year : ℚ
  insurance_grid_per_mw_year : ℚ
  decommissioning_per_mw : ℚ
deriving DecidableEq, Repr

/-- `FinancialParameters` of `models.py`. -/
structure FinancialParameters where
  debt_tenor_years : ℕ
  debt_pct_on_capex : ℚ
  interest_rate : ℚ
  amortization_type : AmortType
  debt_upfront_fees_pct : ℚ
  ires : ℚ
  irap : ℚ
  depreciation_life_years : ℕ
  discount_rate_equity : ℚ
deriving DecidableEq, Repr

/-- `MunicipalityFees` of `models.py`. -/
structure MunicipalityFees where
  enabled : Bool
  royalty_pct : ℚ
  discounted_upfront : Bool
  discount_rate_wacc : ℚ
deriving DecidableEq, Repr

/-- `Revenues` of `models.py`. The model has no terminal-value fields, so the
engine's `getattr(rv, "terminal_value_enabled", False)` always yields `False`. -/
structure Revenues where
  floor_type : FloorType
  cm_price_per_mw_year : ℚ
  cm_share_of_mw : ℚ
  cm_duration_years : ℕ
  cm_escalation : ℚ
  macse_price_per_mwh : ℚ
  macse_share_of_nom_energy : ℚ
  macse_duration_years : ℕ
  macse_escalation : ℚ
  tolling_base_1_per_mw_year : ℚ
  tolling_1_start_year : ℕ
  tolling_1_end_year : ℕ
  tolling_1_booked_cycles : ℚ
  tolling_base_2_per_mw_year : ℚ
  tolling_2_start_year : ℕ
  tolling_2_end_year : ℕ
  tolling_2_booked_cycles : ℚ
  tolling_escalation : ℚ
  tolling_profit_sharing_pct : ℚ
  merchant_enabled : Bool
  merchant_selling_price_per_mwh : ℚ
  merchant_price_escalation : ℚ
deriving DecidableEq, Repr

/-! ### Derived metrics (`derived.py`) -/

/-- `operating_days` of `derive_project`. -/
def operatingDaysPerYear (pj : ProjectData) : ℚ :=
  365 * (1 - pj.grid_system_unavailability)

/-- `total_capex` of `derive_capex_opex` (charged against nominal energy). -/
def totalCapexEur (pj : ProjectData) (cx : CapexOpex) : ℚ :=
  pj.nominal_energy_mwh * cx.initial_capex_per_mw

/-- `opex_year` of `derive_capex_opex`. -/
def opexEurYear (pj : ProjectData) (cx : CapexOpex) : ℚ :=
  (cx.fixed_om_per_mw_year + cx.insurance_grid_per_mw_year) * pj.nominal_power_mw

/-- `debt_amount` of `derive_financial`. -/
def debtAmountEur (fp : FinancialParameters) (totalCapex : ℚ) : ℚ :=
  fp.debt_pct_on_capex * totalCapex

/-- `discount_project` of `derive_financial` (WACC-style blend). -/
def discountRateProject (fp : FinancialParameters) : ℚ :=
  (1 - fp.debt_pct_on_capex) * fp.discount_rate_equity
    + fp.debt_pct_on_capex * fp.interest_rate * (1 - fp.ires)

/-! ### Debt amortization schedule (`engine.py`, `_debt_schedule`) -/

/-- One row of the debt schedule DataFrame built by `_debt_schedule`. -/
structure DebtRow where
  Year : ℕ
  Debt_Open : ℚ
  Interest : ℚ
  Principal : ℚ
  Debt_Service : ℚ
  Debt_Close : ℚ
deriving DecidableEq, Repr

/-- `_annuity_payment` of `engine.py`. -/
def annuityPayment (P r : ℚ) (n : ℕ) : ℚ :=
  if n = 0 then 0
  else if r ≤ 0 then P / n
  else P * (r * (1 + r) ^ n) / ((1 + r) ^ n - 1)

/-- Principal repaid in one period given the opening balance `b`:
the clamped expressions of `_debt_schedule` (lines 60 and 100). -/
def principalStep (amort : AmortType) (pay pfix r b : ℚ) : ℚ :=
  match amort with
  | .annuity => min (max 0 (pay - b * r)) b
  | .equal_principal => min pfix b

/-- The running balance variable `bal` of `_debt_schedule` after `k` payment
periods (periods are years `1..k`). -/
def debtBal (amort : AmortType) (P r pay pfix : ℚ) : ℕ → ℚ
  | 0 => P
  | k + 1 =>
    let b := debtBal amort P r pay pfix k
    b - principalStep amort pay pfix r b

/-- The annuity payment used by `_debt_schedule` for this debt/parameters. -/
def debtPay (debt : ℚ) (fp : FinancialParameters) : ℚ :=
  annuityPayment debt fp.interest_rate fp.debt_tenor_years

/-- `principal_fixed` of the equal-principal branch of `_debt_schedule`. -/
def debtPfix (debt : ℚ) (fp : FinancialParameters) : ℚ :=
  debt / fp.debt_tenor_years

/-- The running balance of `_debt_schedule` after `k` payment years. -/
def debtBalFp (debt : ℚ) (fp : FinancialParameters) (k : ℕ) : ℚ :=
  debtBal fp.amortization_type debt fp.interest_rate (debtPay debt fp) (debtPfix debt fp) k

/-- Principal repaid in year `y` (for `1 ≤ y ≤ tenor`) by `_debt_schedule`. -/
def debtPrinAt (debt : ℚ) (fp : FinancialParameters) (y : ℕ) : ℚ :=
  principalStep fp.amortization_type (debtPay debt fp) (debtPfix debt fp)
    fp.interest_rate (debtBalFp debt fp (y - 1))

/-- Row of `_debt_schedule` at year `y` (the schedule covers years
`0..project_life`). -/
def debtRowAt (debt : ℚ) (fp : FinancialParameters) (y : ℕ) : DebtRow :=
  if fp.debt_tenor_years = 0 ∨ debt ≤ 0 then
    ⟨y, 0, 0, 0, 0, 0⟩
  else if y = 0 then
    ⟨0, 0, 0, 0, 0, debt⟩
  else if y ≤ fp.debt_tenor_years then
    ⟨y, debtBalFp debt fp (y - 1),
      debtBalFp debt fp (y - 1) * fp.interest_rate,
      debtPrinAt debt fp y,
      debtBalFp debt fp (y - 1) * fp.interest_rate + debtPrinAt debt fp y,
      debtBalFp debt fp (y - 1) - debtPrinAt debt fp y⟩
  else
    ⟨y, 0, 0, 0, 0, 0⟩

/-- `_debt_schedule` of `engine.py`: one row per year `0..project_life`. -/
def debtSchedule (debt : ℚ) (fp : FinancialParameters) (life : ℕ) : List DebtRow :=
  (List.range (life + 1)).map (debtRowAt debt fp)

/-! ### Debt schedule lemmas -/

theorem debtBal_step (amort : AmortType) (P r pay pfix : ℚ) (k : ℕ) :
    debtBal amort P r pay pfix (k + 1)
      = debtBal amort P r pay pfix k
        - principalStep amort pay pfix r (debtBal amort P r pay pfix k) := by
  simp [debtBal]

theorem debtBalFp_step (debt : ℚ) (fp : FinancialParameters) (k : ℕ) :
    debtBalFp debt fp (k + 1) = debtBalFp debt fp k - debtPrinAt debt fp (k + 1) := by
  simp [debtBalFp, debtPrinAt, debtBal_step, Nat.add_sub_cancel]

theorem debtBal_nonneg (amort : AmortType) (P r pay pfix : ℚ) (hP : 0 ≤ P) :
    ∀ k, 0 ≤ debtBal amort P r pay pfix k := by
  intro k
  induction k with
  | zero => simpa [debtBal]
  | succ k ih =>
    rw [debtBal_step]
    have hmin : principalStep amort pay pfix r (debtBal amort P r pay pfix k)
        ≤ debtBal amort P r pay pfix k := by
      cases amort <;> simp [principalStep]
    linarith

theorem annuity_bal_closed (P r : ℚ) (n : ℕ) (pfix : ℚ)
    (hP : 0 < P) (hr : 0 < r) (hn : n ≠ 0) :
    ∀ k, k ≤ n →
      debtBal .annuity P r (annuityPayment P r n) pfix k
        = P * ((1 + r) ^ n - (1 + r) ^ k) / ((1 + r) ^ n - 1) := by
  have h1r : (1 : ℚ) < 1 + r := by linarith
  have hA : (1 : ℚ) < (1 + r) ^ n := one_lt_pow h1r hn
  have hA0 : (1 + r) ^ n - 1 ≠ 0 := by linarith
  have hpay : annuityPayment P r n = P * (r * (1 + r) ^ n) / ((1 + r) ^ n - 1) := by
    simp [annuityPayment, hn, not_le.mpr hr]
  intro k
  induction k with
  | zero =>
    intro _
    simp only [debtBal, pow_zero]
    field_simp
  | succ k ih =>
    intro hk
    have hk' : k ≤ n := Nat.le_of_succ_le hk
    have hb := ih hk'
    rw [debtBal_step, hb]
    have hBpos : (0 : ℚ) < (1 + r) ^ k := pow_pos (by linarith) k
    have hBle : (1 + r) ^ k * (1 + r) ≤ (1 + r) ^ n := by
      rw [← pow_succ]
      exact pow_le_pow_right (le_of_lt h1r) hk
    have hx : annuityPayment P r n
        - P * ((1 + r) ^ n - (1 + r) ^ k) / ((1 + r) ^ n - 1) * r
        = P * r * (1 + r) ^ k / ((1 + r) ^ n - 1) := by
      rw [hpay]; field_simp; ring
    have hx0 : 0 ≤ P * r * (1 + r) ^ k / ((1 + r) ^ n - 1) := by
      apply div_nonneg _ (by linarith)
      positivity
    have hxb : P * r * (1 + r) ^ k / ((1 + r) ^ n - 1)
        ≤ P * ((1 + r) ^ n - (1 + r) ^ k) / ((1 + r) ^ n - 1) := by
      apply (div_le_div_right (by linarith : (0 : ℚ) < (1 + r) ^ n - 1)).mpr
      have hnum : 0 ≤ P * ((1 + r) ^ n - (1 + r) ^ k * (1 + r)) :=
        mul_nonneg hP.le (by linarith)
      nlinarith
    simp only [principalStep]
    rw [hx, max_eq_right hx0, min_eq_left hxb]
    rw [pow_succ]
    field_simp
    ring

theorem bal_closed_linear (amort : AmortType) (P r pay pfix : ℚ) (n : ℕ)
    (hstep : ∀ b, 0 ≤ b → principalStep amort pay pfix r b = min (P / n) b)
    (hP : 0 < P) (hn : n ≠ 0) :
    ∀ k, k ≤ n → debtBal amort P r pay pfix k = P * ((n : ℚ) - k) / n := by
  have hn0 : ((n : ℚ)) ≠ 0 := Nat.cast_ne_zero.mpr hn
  have hnpos : (0 : ℚ) < n := by
    have := Nat.pos_of_ne_zero hn
    exact_mod_cast this
  intro k
  induction k with
  | zero =>
    intro _
    simp only [debtBal, Nat.cast_zero, sub_zero]
    field_simp
  | succ k ih =>
    intro hk
    have hk' : k ≤ n := Nat.le_of_succ_le hk
    have hb := ih hk'
    have hk1 : (k : ℚ) + 1 ≤ n := by exact_mod_cast hk
    have hbpos : 0 ≤ P * ((n : ℚ) - k) / n :=
      div_nonneg (mul_nonneg hP.le (by linarith)) hnpos.le
    rw [debtBal_step, hb, hstep _ hbpos]
    have hnum : P ≤ P * ((n : ℚ) - k) := by nlinarith
    have hle : P / n ≤ P * ((n : ℚ) - k) / n :=
      div_le_div_of_nonneg_right hnum hnpos.le
    rw [min_eq_left hle]
    push_cast
    field_simp
    ring

theorem annuity_zero_rate_step (P pfix : ℚ) (n : ℕ) (hP : 0 < P) (hn : n ≠ 0) :
    ∀ b, 0 ≤ b →
      principalStep .annuity (annuityPayment P 0 n) pfix 0 b = min (P / n) b := by
  intro b _
  have hpay : annuityPayment P 0 n = P / n := by
    simp [annuityPayment, hn]
  have hnn : (0 : ℚ) ≤ P / n := by positivity
  simp [principalStep, hpay, max_eq_right, hnn]

theorem debtBal_tenor_zero (amort : AmortType) (P r : ℚ) (n : ℕ)
    (hP : 0 < P) (hr : 0 ≤ r) (hn : n ≠ 0) :
    debtBal amort P r (annuityPayment P r n) (P / n) n = 0 := by
  have hn0 : ((n : ℚ)) ≠ 0 := Nat.cast_ne_zero.mpr hn
  cases amort with
  | annuity =>
    rcases eq_or_lt_of_le hr with hr0 | hrpos
    · subst hr0
      rw [bal_closed_linear .annuity P 0 (annuityPayment P 0 n) (P / n) n
        (annuity_zero_rate_step P (P / n) n hP hn) hP hn n le_rfl]
      simp
    · rw [annuity_bal_closed P r n (P / n) hP hrpos hn n le_rfl]
      simp
  | equal_principal =>
    rw [bal_closed_linear .equal_principal P r (annuityPayment P r n) (P / n) n
      (fun b _ => rfl) hP hn n le_rfl]
    simp

theorem debtBalFp_tenor_zero (debt : ℚ) (fp : FinancialParameters)
    (hdebt : 0 < debt) (hr : 0 ≤ fp.interest_rate) (hn : fp.debt_tenor_years ≠ 0) :
    debtBalFp debt fp fp.debt_tenor_years = 0 :=
  debtBal_tenor_zero fp.amortization_type debt fp.interest_rate fp.debt_tenor_years
    hdebt hr hn

theorem debtBalFp_nonneg (debt : ℚ) (fp : FinancialParameters) (hdebt : 0 ≤ debt)
    (k : ℕ) : 0 ≤ debtBalFp debt fp k :=
  debtBal_nonneg fp.amortization_type debt fp.interest_rate (debtPay debt fp)
    (debtPfix debt fp) hdebt k

theorem debtRowAt_Year (debt : ℚ) (fp : FinancialParameters) (y : ℕ) :
    (debtRowAt debt fp y).Year = y := by
  unfold debtRowAt
  split_ifs with h1 h2 h3 <;> simp_all

theorem debtRowAt_Principal_eq (debt : ℚ) (fp : FinancialParameters) (y : ℕ)
    (hg : ¬(fp.debt_tenor_years = 0 ∨ debt ≤ 0))
    (hy1 : 1 ≤ y) (hyn : y ≤ fp.debt_tenor_years) :
    (debtRowAt debt fp y).Principal = debtBalFp debt fp (y - 1) - debtBalFp debt fp y := by
  obtain ⟨m, rfl⟩ : ∃ m, y = m + 1 := ⟨y - 1, by omega⟩
  unfold debtRowAt
  rw [if_neg hg, if_neg (Nat.succ_ne_zero m), if_pos hyn]
  rw [debtBalFp_step]
  simp

theorem debtRowAt_Principal_zero (debt : ℚ) (fp : FinancialParameters) (y : ℕ)
    (h : y = 0 ∨ fp.debt_tenor_years < y) :
    (debtRowAt debt fp y).Principal = 0 := by
  unfold debtRowAt
  split_ifs with h1 h2 h3
  · rfl
  · rfl
  · exfalso; omega
  · rfl

theorem debtRowAt_Close_eq (debt : ℚ) (fp : FinancialParameters) (y : ℕ)
    (hg : ¬(fp.debt_tenor_years = 0 ∨ debt ≤ 0))
    (hy1 : 1 ≤ y) (hyn : y ≤ fp.debt_tenor_years) :
    (debtRowAt debt fp y).Debt_Close = debtBalFp debt fp y := by
  obtain ⟨m, rfl⟩ : ∃ m, y = m + 1 := ⟨y - 1, by omega⟩
  unfold debtRowAt
  rw [if_neg hg, if_neg (Nat.succ_ne_zero m), if_pos hyn]
  rw [debtBalFp_step]
  simp

theorem sum_filter_of_zero {α : Type} (f : α → ℚ) (p : α → Bool) :
    ∀ l : List α, (∀ a ∈ l, p a = false → f a = 0) →
      ((l.filter p).map f).sum = (l.map f).sum := by
  intro l
  induction l with
  | nil => intro _; rfl
  | cons a l ih =>
    intro h
    have hl := ih (fun b hb => h b (List.mem_cons_of_mem a hb))
    cases hpa : p a with
    | true => simp [List.filter_cons, hpa, hl]
    | false =>
      have hfa : f a = 0 := h a (List.mem_cons_self a l) hpa
      simp [List.filter_cons, hpa, hl, hfa]

theorem sum_map_range (f : ℕ → ℚ) :
    ∀ m, ((List.range m).map f).sum = ∑ i in Finset.range m, f i := by
  intro m
  induction m with
  | zero => rfl
  | succ m ih =>
    rw [List.range_succ, List.map_append, List.sum_append, ih,
      Finset.sum_range_succ]
    simp

theorem principal_range_sum (debt : ℚ) (fp : FinancialParameters) (life : ℕ)
    (hdebt : 0 < debt) (hr : 0 ≤ fp.interest_rate)
    (hn : fp.debt_tenor_years ≠ 0) (hnl : fp.debt_tenor_years ≤ life) :
    ∑ i in Finset.range (life + 1), (debtRowAt debt fp i).Principal = debt := by
  set n := fp.debt_tenor_years with hn_def
  have hg : ¬(fp.debt_tenor_years = 0 ∨ debt ≤ 0) := by
    push_neg
    exact ⟨hn, hdebt⟩
  have hsplit : (∑ i in Finset.Ico 0 (n + 1), (debtRowAt debt fp i).Principal)
      + ∑ i in Finset.Ico (n + 1) (life + 1), (debtRowAt debt fp i).Principal
      = ∑ i in Finset.Ico 0 (life + 1), (debtRowAt debt fp i).Principal :=
    Finset.sum_Ico_consecutive _ (Nat.zero_le (n + 1)) (by omega)
  rw [Finset.range_eq_Ico, ← hsplit]
  have htail : ∑ i in Finset.Ico (n + 1) (life + 1), (debtRowAt debt fp i).Principal = 0 := by
    apply Finset.sum_eq_zero
    intro i hi
    have hmem := (Finset.mem_Ico.mp hi).1
    exact debtRowAt_Principal_zero debt fp i (Or.inr (by omega))
  rw [htail, add_zero, ← Finset.range_eq_Ico, Finset.sum_range_succ']
  have h0 : (debtRowAt debt fp 0).Principal = 0 :=
    debtRowAt_Principal_zero debt fp 0 (Or.inl rfl)
  rw [h0, add_zero]
  have hcongr : ∑ i in Finset.range n, (debtRowAt debt fp (i + 1)).Principal
      = ∑ i in Finset.range n, (debtBalFp debt fp i - debtBalFp debt fp (i + 1)) := by
    apply Finset.sum_congr rfl
    intro i hi
    have hi' := Finset.mem_range.mp hi
    rw [debtRowAt_Principal_eq debt fp (i + 1) hg (by omega) (by omega)]
    simp
  rw [hcongr, Finset.sum_range_sub']
  have hbal0 : debtBalFp debt fp 0 = debt := rfl
  rw [hbal0, debtBalFp_tenor_zero debt fp hdebt hr hn]
  ring

theorem debtRowAt_Close_nonneg (debt : ℚ) (fp : FinancialParameters) (y : ℕ)
    (hdebt : 0 ≤ debt) : 0 ≤ (debtRowAt debt fp y).Debt_Close := by
  unfold debtRowAt
  split_ifs with h1 h2 h3
  · exact le_refl 0
  · exact hdebt
  · have hstep : debtPrinAt debt fp y ≤ debtBalFp debt fp (y - 1) := by
      unfold debtPrinAt
      cases fp.amortization_type <;> simp [principalStep]
    simpa using sub_nonneg.mpr hstep
  · exact le_refl 0

/-- C2: for positive debt and a tenor between 1 and the project life, under both
amortization types, the principal column over years `1..tenor` sums back to the
debt amount (within the claimed `1e-6` relative tolerance; here the sum is
exact), the closing balance at the tenor year is zero, and the closing balance
is non-negative in every year of the schedule. -/
theorem C2_debt_schedule (debt : ℚ) (fp : FinancialParameters) (life : ℕ)
    (hdebt : 0 < debt) (hr : 0 ≤ fp.interest_rate)
    (hn1 : 1 ≤ fp.debt_tenor_years) (hnl : fp.debt_tenor_years ≤ life) :
    |(((debtSchedule debt fp life).filter
        (fun row => 1 ≤ row.Year ∧ row.Year ≤ fp.debt_tenor_years)).map
        DebtRow.Principal).sum - debt| ≤ debt / 1000000
    ∧ (∀ row ∈ debtSchedule debt fp life,
        row.Year = fp.debt_tenor_years → row.Debt_Close = 0)
    ∧ ∀ row ∈ debtSchedule debt fp life, 0 ≤ row.Debt_Close := by
  have hn : fp.debt_tenor_years ≠ 0 := by omega
  have hg : ¬(fp.debt_tenor_years = 0 ∨ debt ≤ 0) := by
    push_neg
    exact ⟨hn, hdebt⟩
  refine ⟨?_, ?_, ?_⟩
  · have hz : ∀ row ∈ debtSchedule debt fp life,
        (fun row => decide (1 ≤ row.Year ∧ row.Year ≤ fp.debt_tenor_years)) row = false
          → row.Principal = 0 := by
      intro row hrow hfalse
      obtain ⟨i, hi, rfl⟩ := List.mem_map.mp hrow
      simp only [debtRowAt_Year, decide_eq_false_iff_not, not_and, not_le] at hfalse
      by_cases hi1 : 1 ≤ i
      · exact debtRowAt_Principal_zero debt fp i (Or.inr (hfalse hi1))
      · exact debtRowAt_Principal_zero debt fp i (Or.inl (by omega))
    rw [sum_filter_of_zero _ _ _ hz]
    unfold debtSchedule
    rw [List.map_map, sum_map_range]
    simp only [Function.comp]
    rw [principal_range_sum debt fp life hdebt hr hn hnl]
    simp only [sub_self, abs_zero]
    positivity
  · intro row hrow hyear
    obtain ⟨i, hi, rfl⟩ := List.mem_map.mp hrow
    rw [debtRowAt_Year] at hyear
    subst hyear
    rw [debtRowAt_Close_eq debt fp _ hg hn1 le_rfl]
    exact debtBalFp_tenor_zero debt fp hdebt hr hn
  · intro row hrow
    obtain ⟨i, hi, rfl⟩ := List.mem_map.mp hrow
    exact debtRowAt_Close_nonneg debt fp i hdebt.le

/-- Concrete financial parameters used by the C2 witness: tenor 1,
interest 10%, annuity. -/
def fpW : FinancialParameters :=
  ⟨1, 3/5, 1/10, .annuity, 1/100, 24/100, 39/1000, 15, 1/10⟩

theorem C2_debt_schedule_witness :
    (0 < (1000 : ℚ) ∧ 0 ≤ fpW.interest_rate
      ∧ 1 ≤ fpW.debt_tenor_years ∧ fpW.debt_tenor_years ≤ 1)
    ∧ (|(((debtSchedule 1000 fpW 1).filter
          (fun row => 1 ≤ row.Year ∧ row.Year ≤ fpW.debt_tenor_years)).map
          DebtRow.Principal).sum - 1000| ≤ 1000 / 1000000
      ∧ (∀ row ∈ debtSchedule 1000 fpW 1,
          row.Year = fpW.debt_tenor_years → row.Debt_Close = 0)
      ∧ ∀ row ∈ debtSchedule 1000 fpW 1, 0 ≤ row.Debt_Close) :=
  ⟨⟨by norm_num, by norm_num [fpW], by norm_num [fpW], by norm_num [fpW]⟩,
    C2_debt_schedule 1000 fpW 1 (by norm_num) (by norm_num [fpW])
      (by norm_num [fpW]) (by norm_num [fpW])⟩

/-! ### Engine year loop (`engine.py`, `run_financial_model`) -/

/-- The engine reads `getattr(cx, "land_cost_eur", 0.0)`; `CapexOpex` has no
such field, so the land cost is always `0.0`. -/
def landCostEur : ℚ := 0

/-- `aug_cost_each` of `run_financial_model`. -/
def augCostEach (pj : ProjectData) (cx : CapexOpex) : ℚ :=
  totalCapexEur pj cx * cx.battery_share_of_capex * cx.augmentation_cost_pct_of_batt_capex

/-- First augmentation year is listed in `aug_years` (truthy and within life). -/
def augYear1Active (pj : ProjectData) (cx : CapexOpex) : Prop :=
  cx.augmentation_year_1 ≠ 0 ∧ cx.augmentation_year_1 ≤ pj.project_life

/-- Second augmentation year is listed in `aug_years`. -/
def augYear2Active (pj : ProjectData) (cx : CapexOpex) : Prop :=
  cx.augmentation_year_2 ≠ 0 ∧ cx.augmentation_year_2 ≤ pj.project_life
    ∧ cx.augmentation_year_2 ≠ cx.augmentation_year_1

instance (pj : ProjectData) (cx : CapexOpex) : Decidable (augYear1Active pj cx) := by
  unfold augYear1Active
  infer_instance

instance (pj : ProjectData) (cx : CapexOpex) : Decidable (augYear2Active pj cx) := by
  unfold augYear2Active
  infer_instance

/-- `augmentation_by_year` of `run_financial_model`. -/
def augmentationAt (pj : ProjectData) (cx : CapexOpex) (y : ℕ) : ℚ :=
  (if augYear1Active pj cx ∧ y = cx.augmentation_year_1 then augCostEach pj cx else 0)
    + (if augYear2Active pj cx ∧ y = cx.augmentation_year_2 then augCostEach pj cx else 0)

/-- `capex_by_year` of `run_financial_model` (initial CAPEX plus land at year 0). -/
def capexAt (pj : ProjectData) (cx : CapexOpex) (y : ℕ) : ℚ :=
  if y = 0 then totalCapexEur pj cx + landCostEur else 0

/-- `decom_cost` of `run_financial_model`. -/
def decomCost (pj : ProjectData) (cx : CapexOpex) : ℚ :=
  cx.decommissioning_per_mw * pj.nominal_power_mw

/-- `reserve_yield = 0.0  # no interest for now` of `run_financial_model`. -/
def reserveYield : ℚ := 0

/-- Guard of the reserve-fund block: `target > 0 and pj.project_life > 1`. -/
def reserveGuard (pj : ProjectData) (cx : CapexOpex) : Prop :=
  0 < decomCost pj cx ∧ 1 < pj.project_life

instance (pj : ProjectData) (cx : CapexOpex) : Decidable (reserveGuard pj cx) := by
  unfold reserveGuard
  infer_instance

/-- `annual_contribution = target / (pj.project_life - 1)`. -/
def reserveAnnual (pj : ProjectData) (cx : CapexOpex) : ℚ :=
  decomCost pj cx / ((pj.project_life - 1 : ℕ) : ℚ)

/-- The running `balance` local of the reserve block after processing year `y`
(interest is added at `reserveYield = 0`, then the clipped contribution). -/
def reserveBalRec (target annual : ℚ) (life : ℕ) : ℕ → ℚ
  | 0 => 0
  | y + 1 =>
    let b := reserveBalRec target annual life y
    let b2 := b + b * reserveYield
    if y + 1 < life ∧ b2 < target then b2 + min annual (target - b2) else b2

/-- The (positive) contribution amount `contrib` of the reserve block in year `y`. -/
def reserveContribAmt (target annual : ℚ) (life : ℕ) (y : ℕ) : ℚ :=
  match y with
  | 0 => 0
  | y + 1 =>
    let b2 := reserveBalRec target annual life y
        + reserveBalRec target annual life y * reserveYield
    if y + 1 < life ∧ b2 < target then min annual (target - b2) else 0

/-- `reserve_contribution_by_year` (recorded as a negative cash flow). -/
def reserveContributionAt (pj : ProjectData) (cx : CapexOpex) (y : ℕ) : ℚ :=
  if reserveGuard pj cx then
    -(reserveContribAmt (decomCost pj cx) (reserveAnnual pj cx) pj.project_life y)
  else 0

/-- `reserve_interest_by_year` (interest on the opening balance, rate 0). -/
def reserveInterestAt (pj : ProjectData) (cx : CapexOpex) (y : ℕ) : ℚ :=
  if reserveGuard pj cx ∧ 1 ≤ y then
    reserveBalRec (decomCost pj cx) (reserveAnnual pj cx) pj.project_life (y - 1)
      * reserveYield
  else 0

/-- `reserve_release_by_year` (full balance released at end of life). -/
def reserveReleaseAt (pj : ProjectData) (cx : CapexOpex) (y : ℕ) : ℚ :=
  if reserveGuard pj cx ∧ y = pj.project_life then
    reserveBalRec (decomCost pj cx) (reserveAnnual pj cx) pj.project_life pj.project_life
  else 0

/-- `reserve_balance_by_year` (the balance recorded for year `y`). -/
def reserveBalanceAt (pj : ProjectData) (cx : CapexOpex) (y : ℕ) : ℚ :=
  if reserveGuard pj cx then
    reserveBalRec (decomCost pj cx) (reserveAnnual pj cx) pj.project_life y
  else 0

/-- `dep_life = int(min(fp.depreciation_life_years, pj.project_life))`. -/
def depLife (pj : ProjectData) (fp : FinancialParameters) : ℕ :=
  min fp.depreciation_life_years pj.project_life

/-- `dep_by_year` of `run_financial_model`: straight-line per CAPEX tranche. -/
def depreciationAt (pj : ProjectData) (cx : CapexOpex) (fp : FinancialParameters)
    (y : ℕ) : ℚ :=
  (if 1 ≤ y ∧ y ≤ pj.project_life ∧ y - 1 < depLife pj fp then
    totalCapexEur pj cx / (depLife pj fp : ℚ) else 0)
  + (if augYear1Active pj cx ∧ cx.augmentation_year_1 ≤ y ∧ y ≤ pj.project_life
        ∧ y - cx.augmentation_year_1 < depLife pj fp then
      augCostEach pj cx / (depLife pj fp : ℚ) else 0)
  + (if augYear2Active pj cx ∧ cx.augmentation_year_2 ≤ y ∧ y ≤ pj.project_life
        ∧ y - cx.augmentation_year_2 < depLife pj fp then
      augCostEach pj cx / (depLife pj fp : ℚ) else 0)

/-- `_degrade_factor` of `engine.py` (natural subtraction gives `max(0, y-1)`). -/
def degradeFactor (rate : ℚ) (y : ℕ) : ℚ :=
  (1 - rate) ^ (y - 1)

/-- `f_deg` for year `y` (1 when degradation is not applied). -/
def fDeg (pj : ProjectData) (adeg : Bool) (y : ℕ) : ℚ :=
  if adeg then degradeFactor pj.degradation_rate y else 1

/-- `power_y` for year `y`. -/
def powerY (pj : ProjectData) (adeg : Bool) (y : ℕ) : ℚ :=
  pj.nominal_power_mw * fDeg pj adeg y

/-- `energy_y` for year `y`. -/
def energyY (pj : ProjectData) (adeg : Bool) (y : ℕ) : ℚ :=
  pj.nominal_energy_mwh * fDeg pj adeg y

/-- `rev_floor[y]` of `run_financial_model`. The engine's terminal-value branch
reads `getattr(rv, "terminal_value_enabled", False)`, and `Revenues` has no such
field, so that branch never fires. -/
def revFloorAt (pj : ProjectData) (rv : Revenues) (adeg : Bool) (y : ℕ) : ℚ :=
  if y = 0 then 0
  else if rv.floor_type = .CM ∧ y ≤ rv.cm_duration_years then
    rv.cm_price_per_mw_year * (1 + rv.cm_escalation) ^ (y - 1)
      * powerY pj adeg y * rv.cm_share_of_mw
  else if rv.floor_type = .MACSE ∧ y ≤ rv.macse_duration_years then
    rv.macse_price_per_mwh * (1 + rv.macse_escalation) ^ (y - 1)
      * energyY pj adeg y * rv.macse_share_of_nom_energy
  else 0

/-- `_active(y, s, e)` of `run_financial_model`. -/
def tollingActive (y s e : ℕ) : Prop :=
  0 < s ∧ 0 < e ∧ s ≤ y ∧ y ≤ e

instance (y s e : ℕ) : Decidable (tollingActive y s e) := by
  unfold tollingActive
  infer_instance

/-- `rev_toll[y]` of `run_financial_model` (tranche 1 only; independent of the
merchant flag). -/
def revTollAt (pj : ProjectData) (rv : Revenues) (adeg : Bool) (y : ℕ) : ℚ :=
  if y = 0 then 0
  else if tollingActive y rv.tolling_1_start_year rv.tolling_1_end_year then
    rv.tolling_base_1_per_mw_year * (1 + rv.tolling_escalation) ^ (y - 1)
      * powerY pj adeg y * (1 + rv.tolling_profit_sharing_pct)
  else 0

/-- `rev_merch[y]` of `run_financial_model`: merchant starts only after
`tolling_1_end_year`. -/
def revMerchAt (pj : ProjectData) (rv : Revenues) (adeg : Bool) (y : ℕ) : ℚ :=
  if y = 0 then 0
  else if rv.merchant_enabled ∧ rv.tolling_1_end_year < y then
    energyY pj adeg y * (pj.soc_max - pj.soc_min) * pj.cycles_per_day
      * operatingDaysPerYear pj
      * (rv.merchant_selling_price_per_mwh
          * (1 + rv.merchant_price_escalation) ^ (y - 1))
  else 0

/-- `Revenue_Total` for year `y`. -/
def revTotalAt (pj : ProjectData) (rv : Revenues) (adeg : Bool) (y : ℕ) : ℚ :=
  revFloorAt pj rv adeg y + revTollAt pj rv adeg y + revMerchAt pj rv adeg y

/-- `upfront_pv` of `run_financial_model` (discounted-upfront royalty). -/
def upfrontPv (pj : ProjectData) (rv : Revenues) (mf : MunicipalityFees)
    (adeg : Bool) : ℚ :=
  if mf.enabled ∧ mf.discounted_upfront then
    ∑ yy in Finset.Icc 1 pj.project_life,
      revTotalAt pj rv adeg yy * mf.royalty_pct
        / (1 + mf.discount_rate_wacc) ^ (yy - 1)
  else 0

/-- `Royalty_yearly` for year `y`. -/
def royaltyYearlyAt (pj : ProjectData) (rv : Revenues) (mf : MunicipalityFees)
    (adeg : Bool) (y : ℕ) : ℚ :=
  if mf.enabled ∧ 1 ≤ y ∧ ¬mf.discounted_upfront then
    revTotalAt pj rv adeg y * mf.royalty_pct
  else 0

/-- `Royalty_Upfront_y0` for year `y`. -/
def royaltyUpfrontAt (pj : ProjectData) (rv : Revenues) (mf : MunicipalityFees)
    (adeg : Bool) (y : ℕ) : ℚ :=
  if mf.enabled ∧ mf.discounted_upfront ∧ y = 0 then upfrontPv pj rv mf adeg else 0

/-- `OPEX` for year `y`. -/
def opexAt (pj : ProjectData) (cx : CapexOpex) (y : ℕ) : ℚ :=
  if y = 0 then 0 else opexEurYear pj cx

/-- `EBITDA` for year `y`. -/
def ebitdaAt (pj : ProjectData) (cx : CapexOpex) (rv : Revenues)
    (mf : MunicipalityFees) (adeg : Bool) (y : ℕ) : ℚ :=
  revTotalAt pj rv adeg y - opexAt pj cx y - royaltyYearlyAt pj rv mf adeg y

/-- `debt_amount` of `run_financial_model`. -/
def debtAmount (pj : ProjectData) (cx : CapexOpex) (fp : FinancialParameters) : ℚ :=
  debtAmountEur fp (totalCapexEur pj cx)

/-- `EBT` for year `y`. -/
def ebtAt (pj : ProjectData) (cx : CapexOpex) (fp : FinancialParameters)
    (rv : Revenues) (mf : MunicipalityFees) (adeg : Bool) (y : ℕ) : ℚ :=
  ebitdaAt pj cx rv mf adeg y - depreciationAt pj cx fp y
    - (debtRowAt (debtAmount pj cx fp) fp y).Interest

/-- The `loss_cf` state after processing year `y` (0.8 is the IRES
loss-offset cap of the source). -/
def lossCF (pj : ProjectData) (cx : CapexOpex) (fp : FinancialParameters)
    (rv : Revenues) (mf : MunicipalityFees) (adeg : Bool) : ℕ → ℚ
  | 0 => 0
  | y + 1 =>
    let l := lossCF pj cx fp rv mf adeg y
    let ebt := ebtAt pj cx fp rv mf adeg (y + 1)
    if ebt < 0 then l + -ebt else l - min l (0.8 * ebt)

/-- `loss_used` for year `y`. -/
def lossUsedAt (pj : ProjectData) (cx : CapexOpex) (fp : FinancialParameters)
    (rv : Revenues) (mf : MunicipalityFees) (adeg : Bool) (y : ℕ) : ℚ :=
  match y with
  | 0 => 0
  | y + 1 =>
    let ebt := ebtAt pj cx fp rv mf adeg (y + 1)
    if ebt < 0 then 0 else min (lossCF pj cx fp rv mf adeg y) (0.8 * ebt)

/-- `ires_taxable` for year `y`. -/
def iresTaxableAt (pj : ProjectData) (cx : CapexOpex) (fp : FinancialParameters)
    (rv : Revenues) (mf : MunicipalityFees) (adeg : Bool) (y : ℕ) : ℚ :=
  match y with
  | 0 => 0
  | y + 1 =>
    let ebt := ebtAt pj cx fp rv mf adeg (y + 1)
    if ebt < 0 then 0 else ebt - lossUsedAt pj cx fp rv mf adeg (y + 1)

/-- One row of the output table of `run_financial_model` (the scalar metadata
columns broadcast to every row are included; the `DSCR` column is `None` in the
source when debt service is zero, modelled as `Option ℚ`). -/
structure YearRow where
  Year : ℕ
  Revenue_Floor : ℚ
  Revenue_Tolling : ℚ
  Revenue_Merchant : ℚ
  Revenue_Total : ℚ
  Municipality_Royalty : ℚ
  Municipality_Royalty_Upfront : ℚ
  OPEX : ℚ
  EBITDA : ℚ
  Depreciation : ℚ
  Interest : ℚ
  EBT : ℚ
  Taxable_IRES : ℚ
  Loss_CF_End : ℚ
  Loss_Used : ℚ
  IRES : ℚ
  IRAP_Base : ℚ
  IRAP : ℚ
  Taxes : ℚ
  CAPEX : ℚ
  Augmentation : ℚ
  Reserve_Contribution : ℚ
  Reserve_Interest : ℚ
  Reserve_Release : ℚ
  Reserve_Balance : ℚ
  Cash_Reserve : ℚ
  Decommissioning : ℚ
  Debt_Close : ℚ
  Debt_Service : ℚ
  DSCR : Option ℚ
  Project_FCF : ℚ
  Equity_CF : ℚ
  Debt_Amount : ℚ
  Debt_Fees : ℚ
  Discount_Rate_Equity : ℚ
  Discount_Rate_Project : ℚ
  Total_Tax_Rate : ℚ

/-- The row of `run_financial_model` for year `y`. -/
def rowAt (pj : ProjectData) (cx : CapexOpex) (fp : FinancialParameters)
    (rv : Revenues) (mf : MunicipalityFees) (adeg : Bool) (y : ℕ) : YearRow :=
  let debt := debtAmount pj cx fp
  let debtFees := debt * fp.debt_upfront_fees_pct
  let drow := debtRowAt debt fp y
  let ebitda := ebitdaAt pj cx rv mf adeg y
  let dep := depreciationAt pj cx fp y
  let taxable := iresTaxableAt pj cx fp rv mf adeg y
  let ires := taxable * fp.ires
  let irapBase := if 1 ≤ y then max 0 (ebitda - dep) else 0
  let irap := irapBase * fp.irap
  let taxes := ires + irap
  let capex := capexAt pj cx y
  let aug := augmentationAt pj cx y
  let resContrib := reserveContributionAt pj cx y
  let resInterest := reserveInterestAt pj cx y
  let resRelease := reserveReleaseAt pj cx y
  let cashReserve := resContrib + resInterest + resRelease
  let decom := if y = pj.project_life ∧ y ≠ 0 then decomCost pj cx else 0
  let royaltyUp := royaltyUpfrontAt pj rv mf adeg y
  let projectFcf :=
    ebitda - taxes - capex - aug - royaltyUp + cashReserve - decom
  { Year := y
    Revenue_Floor := revFloorAt pj rv adeg y
    Revenue_Tolling := revTollAt pj rv adeg y
    Revenue_Merchant := revMerchAt pj rv adeg y
    Revenue_Total := revTotalAt pj rv adeg y
    Municipality_Royalty := royaltyYearlyAt pj rv mf adeg y + royaltyUp
    Municipality_Royalty_Upfront := royaltyUp
    OPEX := opexAt pj cx y
    EBITDA := ebitda
    Depreciation := dep
    Interest := drow.Interest
    EBT := ebtAt pj cx fp rv mf adeg y
    Taxable_IRES := taxable
    Loss_CF_End := lossCF pj cx fp rv mf adeg y
    Loss_Used := lossUsedAt pj cx fp rv mf adeg y
    IRES := ires
    IRAP_Base := irapBase
    IRAP := irap
    Taxes := taxes
    CAPEX := capex
    Augmentation := aug
    Reserve_Contribution := resContrib
    Reserve_Interest := resInterest
    Reserve_Release := resRelease
    Reserve_Balance := reserveBalanceAt pj cx y
    Cash_Reserve := cashReserve
    Decommissioning := decom
    Debt_Close := drow.Debt_Close
    Debt_Service := drow.Debt_Service
    DSCR := if 0 < drow.Debt_Service then some ((ebitda - taxes) / drow.Debt_Service)
      else none
    Project_FCF := projectFcf
    Equity_CF :=
      if y = 0 then -(capex - debt) - debtFees - royaltyUp
      else projectFcf - drow.Debt_Service
    Debt_Amount := debt
    Debt_Fees := debtFees
    Discount_Rate_Equity := fp.discount_rate_equity
    Discount_Rate_Project := discountRateProject fp
    Total_Tax_Rate := fp.ires + fp.irap }

/-- `run_financial_model` of `engine.py`: the output table, one row per year
`0..project_life`. -/
def runFinancialModel (pj : ProjectData) (cx : CapexOpex) (fp : FinancialParameters)
    (rv : Revenues) (mf : MunicipalityFees) (adeg : Bool) : List YearRow :=
  (List.range (pj.project_life + 1)).map (rowAt pj cx fp rv mf adeg)

/-! ### KPI engine (`kpis.py`) -/

/-- Diagnostic note strings attached by `_irr_first_root` (modelled as an
enumeration of the string constants appearing in `kpis.py`). -/
inductive IrrNote where
  | no_cashflows
  | no_sign_change
  | no_bracket_found
  | multiple_irr_possible
  | bracket_invalid
deriving DecidableEq, Repr

/-- `_npv` of `kpis.py` (in exact rational arithmetic the rate is always
defined, so the NaN branch for `rate is None` does not arise). -/
def npv (r : ℚ) (cashflows : List ℚ) : ℚ :=
  ((cashflows.enum).map (fun p => p.2 / (1 + r) ^ p.1)).sum

/-- The candidate-rate grid of `_find_brackets_for_irr`. -/
def rateGrid : List ℚ :=
  [-0.99, -0.9, -0.8, -0.7, -0.6, -0.5, -0.4, -0.3, -0.2, -0.1,
    0.0, 0.01, 0.02, 0.05, 0.08, 0.10, 0.15, 0.20, 0.30, 0.40, 0.50, 0.75, 1.0,
    1.5, 2.0, 3.0, 5.0, 8.0, 10.0, 15.0, 20.0, 30.0, 50.0]

/-- Adjacent-pair scan of `_find_brackets_for_irr`: an exact root at the left
point gives a degenerate bracket, a sign change gives a proper bracket. -/
def bracketScan : List (ℚ × ℚ) → List (ℚ × ℚ)
  | [] => []
  | [_] => []
  | (r0, v0) :: (r1, v1) :: rest =>
    (if v0 = 0 then [(r0, r0)] else if v0 * v1 < 0 then [(r0, r1)] else [])
      ++ bracketScan ((r1, v1) :: rest)

/-- `_find_brackets_for_irr` of `kpis.py`. In exact rational arithmetic no grid
point yields NaN/inf, so no point is skipped. -/
def findBracketsForIrr (cashflows : List ℚ) : List (ℚ × ℚ) :=
  if cashflows.isEmpty then []
  else bracketScan (rateGrid.map (fun r => (r, npv r cashflows)))

/-- The bisection tolerance `1e-8` of `_irr_first_root`. -/
def tolIrr : ℚ := 1e-8

/-- The bisection loop of `_irr_first_root` with explicit fuel
(the source runs exactly 120 iterations, then returns the midpoint). -/
def bisectLoop (cashflows : List ℚ) : ℕ → ℚ → ℚ → ℚ → ℚ → ℚ
  | 0, lo, hi, _, _ => (lo + hi) / 2
  | fuel + 1, lo, hi, fLo, fHi =>
    if |npv ((lo + hi) / 2) cashflows| < tolIrr then (lo + hi) / 2
    else if fLo * npv ((lo + hi) / 2) cashflows ≤ 0 then
      bisectLoop cashflows fuel lo ((lo + hi) / 2) fLo (npv ((lo + hi) / 2) cashflows)
    else
      bisectLoop cashflows fuel ((lo + hi) / 2) hi (npv ((lo + hi) / 2) cashflows) fHi

/-- `_irr_first_root` of `kpis.py`: the IRR (if any) and the diagnostic note. -/
def irrFirstRoot (cashflows : List ℚ) : Option ℚ × Option IrrNote :=
  if cashflows.isEmpty ∨ cashflows.all (fun cf => cf = 0) then
    (none, some .no_cashflows)
  else if ¬(cashflows.any (fun cf => 0 < cf) ∧ cashflows.any (fun cf => cf < 0)) then
    (none, some .no_sign_change)
  else
    match findBracketsForIrr cashflows with
    | [] => (none, some .no_bracket_found)
    | (rLo, rHi) :: rest =>
      if rLo = rHi then
        (some rLo, if rest.isEmpty then none else some .multiple_irr_possible)
      else if npv rLo cashflows = 0 then
        (some rLo, if rest.isEmpty then none else some .multiple_irr_possible)
      else if npv rHi cashflows = 0 then
        (some rHi, if rest.isEmpty then none else some .multiple_irr_possible)
      else if 0 < npv rLo cashflows * npv rHi cashflows then
        (none, some .bracket_invalid)
      else
        (some (bisectLoop cashflows 120 rLo rHi (npv rLo cashflows) (npv rHi cashflows)),
          if rest.isEmpty then none else some .multiple_irr_possible)

/-- `min_dscr` of `calc_kpis`: the minimum over the defined DSCR values,
`None` when no DSCR value is defined. -/
def minDscr (rows : List YearRow) : Option ℚ :=
  match rows.filterMap (fun row => row.DSCR) with
  | [] => none
  | v :: vs => some (vs.foldl min v)

/-! ### Concrete witness inputs -/

/-- Witness project: life 2, 1 MW / 2 MWh, no degradation, no unavailability. -/
def pjW : ProjectData := ⟨2, 1, 2, 0, 1, 1/10, 9/10, 0⟩

/-- Witness CAPEX/OPEX: no augmentations, decommissioning 2 €/MW. -/
def cxW : CapexOpex := ⟨100, 3/5, 1/4, 0, 0, 1, 1, 2⟩

/-- Witness revenues: CM floor at 1000 €/MW·y for 2 years, tolling tranche 1
active in years 1..2 at 1 €/MW·y, merchant enabled. -/
def rvW : Revenues :=
  ⟨.CM, 1000, 1, 2, 0, 90, 1/2, 10, 0, 1, 1, 2, 1, 0, 0, 0, 0, 0, 0, true, 120, 0⟩

/-- Witness municipality fees: disabled. -/
def mfW : MunicipalityFees := ⟨false, 3/100, false, 8/100⟩

/-- Witness revenues for the royalty scenario: CM floor 100 €/MW·y for 2 years,
no tolling, no merchant (total revenue 100 in years 1 and 2). -/
def rvW8 : Revenues :=
  ⟨.CM, 100, 1, 2, 0, 90, 1/2, 10, 0, 60000, 0, 0, 1, 0, 0, 0, 0, 0, 0, false, 120, 0⟩

/-- Witness municipality fees for the royalty scenario: enabled, 5%,
discounted upfront at 0% WACC. -/
def mfW8 : MunicipalityFees := ⟨true, 1/20, true, 0⟩

/-! ### C1 -/

/-- C1 (amended): tolling and merchant are mutually exclusive, but with the
opposite precedence to the claim: merchant revenue can start only after
`tolling_1_end_year`, so in every output row at least one of
`Revenue_Tolling` and `Revenue_Merchant` is zero. -/
theorem C1_tolling_merchant_exclusive (pj : ProjectData) (cx : CapexOpex)
    (fp : FinancialParameters) (rv : Revenues) (mf : MunicipalityFees) (adeg : Bool) :
    ∀ row ∈ runFinancialModel pj cx fp rv mf adeg,
      row.Revenue_Tolling = 0 ∨ row.Revenue_Merchant = 0 := by
  intro row hrow
  obtain ⟨y, hy, rfl⟩ := List.mem_map.mp hrow
  show revTollAt pj rv adeg y = 0 ∨ revMerchAt pj rv adeg y = 0
  by_cases hy0 : y = 0
  · subst hy0
    left
    simp [revTollAt]
  · by_cases hle : y ≤ rv.tolling_1_end_year
    · right
      have hm : ¬((rv.merchant_enabled : Prop) ∧ rv.tolling_1_end_year < y) := by
        rintro ⟨-, hlt⟩
        omega
      simp [revMerchAt, hy0, hm]
    · left
      have ht : ¬ tollingActive y rv.tolling_1_start_year rv.tolling_1_end_year := by
        rintro ⟨-, -, -, hle2⟩
        omega
      simp [revTollAt, hy0, ht]

theorem C1_tolling_merchant_exclusive_witness :
    (rowAt pjW cxW fpW rvW mfW true 1).Revenue_Tolling = 0
      ∨ (rowAt pjW cxW fpW rvW mfW true 1).Revenue_Merchant = 0 :=
  C1_tolling_merchant_exclusive pjW cxW fpW rvW mfW true
    (rowAt pjW cxW fpW rvW mfW true 1) (List.mem_map_of_mem _ (by decide))

/-- C1 counterexample: with merchant enabled and year 1 inside the tolling
window, `Revenue_Tolling` is nonzero — merchant does not take precedence. -/
theorem C1_merchant_does_not_zero_tolling :
    rvW.merchant_enabled = true
      ∧ ∃ row ∈ runFinancialModel pjW cxW fpW rvW mfW true,
          row.Revenue_Tolling ≠ 0 := by
  refine ⟨rfl, rowAt pjW cxW fpW rvW mfW true 1,
    List.mem_map_of_mem _ (by decide), ?_⟩
  show revTollAt pjW rvW true 1 ≠ 0
  norm_num [revTollAt, tollingActive, powerY, fDeg, degradeFactor, pjW, rvW]

/-! ### C4: reserve fund -/

theorem reserveBalRec_succ (target annual : ℚ) (L k : ℕ) :
    reserveBalRec target annual L (k + 1)
      = if k + 1 < L ∧ reserveBalRec target annual L k < target then
          reserveBalRec target annual L k
            + min annual (target - reserveBalRec target annual L k)
        else reserveBalRec target annual L k := by
  simp [reserveBalRec, reserveYield]

theorem reserveBalRec_linear (target annual : ℚ) (L : ℕ)
    (htar : 0 < target) (hL : 1 < L)
    (hann : annual = target / ((L - 1 : ℕ) : ℚ)) :
    ∀ k, k ≤ L - 1 → reserveBalRec target annual L k = k * annual := by
  have hn0 : ((L - 1 : ℕ) : ℚ) ≠ 0 := by
    have : L - 1 ≠ 0 := by omega
    exact_mod_cast this
  have hnpos : (0 : ℚ) < ((L - 1 : ℕ) : ℚ) := by
    have : 0 < L - 1 := by omega
    exact_mod_cast this
  have hapos : 0 < annual := by
    rw [hann]
    positivity
  have htgt : target = ((L - 1 : ℕ) : ℚ) * annual := by
    rw [hann, mul_comm, div_mul_cancel₀ target hn0]
  intro k
  induction k with
  | zero =>
    intro _
    simp [reserveBalRec]
  | succ k ih =>
    intro hk
    have hk' : k ≤ L - 1 := Nat.le_of_succ_le hk
    have hb := ih hk'
    have hklt : ((k : ℚ)) < ((L - 1 : ℕ) : ℚ) := by
      have : k < L - 1 := by omega
      exact_mod_cast this
    have hk1le : ((k : ℚ)) + 1 ≤ ((L - 1 : ℕ) : ℚ) := by
      have : k + 1 ≤ L - 1 := hk
      exact_mod_cast this
    have hblt : reserveBalRec target annual L k < target := by
      rw [hb, htgt]
      exact mul_lt_mul_of_pos_right hklt hapos
    have hcond : k + 1 < L ∧ reserveBalRec target annual L k < target :=
      ⟨by omega, hblt⟩
    rw [reserveBalRec_succ, if_pos hcond, hb]
    have hmin : min annual (target - (k : ℚ) * annual) = annual := by
      apply min_eq_left
      rw [htgt]
      nlinarith
    rw [hmin]
    push_cast
    ring

theorem reserveBalRec_tail (target annual : ℚ) (L : ℕ)
    (htar : 0 < target) (hL : 1 < L)
    (hann : annual = target / ((L - 1 : ℕ) : ℚ)) :
    ∀ j, reserveBalRec target annual L (L - 1 + j) = target := by
  have htgt : target = ((L - 1 : ℕ) : ℚ) * annual := by
    have hn0 : ((L - 1 : ℕ) : ℚ) ≠ 0 := by
      have : L - 1 ≠ 0 := by omega
      exact_mod_cast this
    rw [hann, mul_comm, div_mul_cancel₀ target hn0]
  intro j
  induction j with
  | zero =>
    rw [Nat.add_zero,
      reserveBalRec_linear target annual L htar hL hann (L - 1) le_rfl]
    exact htgt.symm
  | succ j ih =>
    rw [show L - 1 + (j + 1) = (L - 1 + j) + 1 by omega, reserveBalRec_succ, ih]
    simp

theorem reserveBalRec_le_target (target annual : ℚ) (L : ℕ)
    (htar : 0 < target) (hL : 1 < L)
    (hann : annual = target / ((L - 1 : ℕ) : ℚ)) :
    ∀ k, reserveBalRec target annual L k ≤ target := by
  intro k
  by_cases hk : k ≤ L - 1
  · rw [reserveBalRec_linear target annual L htar hL hann k hk]
    have hn0 : ((L - 1 : ℕ) : ℚ) ≠ 0 := by
      have : L - 1 ≠ 0 := by omega
      exact_mod_cast this
    have htgt : target = ((L - 1 : ℕ) : ℚ) * annual := by
      rw [hann, mul_comm, div_mul_cancel₀ target hn0]
    have hapos : 0 ≤ annual := by
      rw [hann]
      positivity
    have hkle : ((k : ℚ)) ≤ ((L - 1 : ℕ) : ℚ) := by exact_mod_cast hk
    rw [htgt]
    nlinarith
  · have : k = L - 1 + (k - (L - 1)) := by omega
    rw [this, reserveBalRec_tail target annual L htar hL hann]

theorem reserveBalRec_at_life (target annual : ℚ) (L : ℕ)
    (htar : 0 < target) (hL : 1 < L)
    (hann : annual = target / ((L - 1 : ℕ) : ℚ)) :
    reserveBalRec target annual L L = target := by
  have h1 : L = L - 1 + (1 : ℕ) := by omega
  nth_rewrite 2 [h1]
  rw [reserveBalRec_tail target annual L htar hL hann]

/-- C4: with a positive decommissioning target and project life above 1, the
recorded reserve balance at the final year equals the target, the final-year
release equals the target, and the reserve contribution is zero at year 0 and
at the final year; moreover the recorded balance never exceeds the target. -/
theorem C4_reserve_fund (pj : ProjectData) (cx : CapexOpex)
    (fp : FinancialParameters) (rv : Revenues) (mf : MunicipalityFees) (adeg : Bool)
    (htar : 0 < decomCost pj cx) (hlife : 1 < pj.project_life) :
    (rowAt pj cx fp rv mf adeg pj.project_life).Reserve_Balance = decomCost pj cx
    ∧ (rowAt pj cx fp rv mf adeg pj.project_life).Reserve_Release = decomCost pj cx
    ∧ (rowAt pj cx fp rv mf adeg 0).Reserve_Contribution = 0
    ∧ (rowAt pj cx fp rv mf adeg pj.project_life).Reserve_Contribution = 0
    ∧ ∀ row ∈ runFinancialModel pj cx fp rv mf adeg,
        row.Reserve_Balance ≤ decomCost pj cx := by
  have hguard : reserveGuard pj cx := ⟨htar, hlife⟩
  have hbal := reserveBalRec_at_life (decomCost pj cx) (reserveAnnual pj cx)
    pj.project_life htar hlife rfl
  refine ⟨?_, ?_, ?_, ?_, ?_⟩
  · show reserveBalanceAt pj cx pj.project_life = decomCost pj cx
    rw [reserveBalanceAt, if_pos hguard, hbal]
  · show reserveReleaseAt pj cx pj.project_life = decomCost pj cx
    rw [reserveReleaseAt, if_pos ⟨hguard, rfl⟩, hbal]
  · show reserveContributionAt pj cx 0 = 0
    rw [reserveContributionAt, if_pos hguard]
    simp [reserveContribAmt]
  · show reserveContributionAt pj cx pj.project_life = 0
    rw [reserveContributionAt, if_pos hguard]
    obtain ⟨m, hm⟩ : ∃ m, pj.project_life = m + 1 := ⟨pj.project_life - 1, by omega⟩
    nth_rewrite 2 [hm]
    have hcond : ¬(m + 1 < pj.project_life
        ∧ reserveBalRec (decomCost pj cx) (reserveAnnual pj cx) pj.project_life m
            + reserveBalRec (decomCost pj cx) (reserveAnnual pj cx) pj.project_life m
              * reserveYield
          < decomCost pj cx) := by
      rintro ⟨hlt, -⟩
      omega
    simp only [reserveContribAmt]
    rw [if_neg hcond]
    simp
  · intro row hrow
    obtain ⟨y, hy, rfl⟩ := List.mem_map.mp hrow
    show reserveBalanceAt pj cx y ≤ decomCost pj cx
    rw [reserveBalanceAt, if_pos hguard]
    exact reserveBalRec_le_target (decomCost pj cx) (reserveAnnual pj cx)
      pj.project_life htar hlife rfl y

theorem C4_reserve_fund_witness :
    (0 < decomCost pjW cxW ∧ 1 < pjW.project_life)
    ∧ ((rowAt pjW cxW fpW rvW mfW true pjW.project_life).Reserve_Balance
        = decomCost pjW cxW
      ∧ (rowAt pjW cxW fpW rvW mfW true pjW.project_life).Reserve_Release
          = decomCost pjW cxW
      ∧ (rowAt pjW cxW fpW rvW mfW true 0).Reserve_Contribution = 0
      ∧ (rowAt pjW cxW fpW rvW mfW true pjW.project_life).Reserve_Contribution = 0
      ∧ ∀ row ∈ runFinancialModel pjW cxW fpW rvW mfW true,
          row.Reserve_Balance ≤ decomCost pjW cxW) :=
  ⟨⟨by norm_num [decomCost, pjW, cxW], by norm_num [pjW]⟩,
    C4_reserve_fund pjW cxW fpW rvW mfW true
      (by norm_num [decomCost, pjW, cxW]) (by norm_num [pjW])⟩

/-! ### C5: loss carryforward -/

theorem lossCF_nonneg (pj : ProjectData) (cx : CapexOpex) (fp : FinancialParameters)
    (rv : Revenues) (mf : MunicipalityFees) (adeg : Bool) :
    ∀ y, 0 ≤ lossCF pj cx fp rv mf adeg y := by
  intro y
  induction y with
  | zero => simp [lossCF]
  | succ y ih =>
    simp only [lossCF]
    split_ifs with h
    · have : 0 < -ebtAt pj cx fp rv mf adeg (y + 1) := by linarith
      linarith
    · have hmin : min (lossCF pj cx fp rv mf adeg y)
          (0.8 * ebtAt pj cx fp rv mf adeg (y + 1)) ≤ lossCF pj cx fp rv mf adeg y :=
        min_le_left _ _
      linarith

/-- C5: the loss-carryforward balance is non-negative in every output row, and
in each year `y ≥ 1` with non-negative EBT the offset used equals
`min(balance before y, 0.8 × EBT)`. -/
theorem C5_loss_carryforward (pj : ProjectData) (cx : CapexOpex)
    (fp : FinancialParameters) (rv : Revenues) (mf : MunicipalityFees) (adeg : Bool) :
    (∀ row ∈ runFinancialModel pj cx fp rv mf adeg, 0 ≤ row.Loss_CF_End)
    ∧ ∀ y, 1 ≤ y → y ≤ pj.project_life →
        0 ≤ (rowAt pj cx fp rv mf adeg y).EBT →
        (rowAt pj cx fp rv mf adeg y).Loss_Used
          = min ((rowAt pj cx fp rv mf adeg (y - 1)).Loss_CF_End)
              (0.8 * (rowAt pj cx fp rv mf adeg y).EBT) := by
  constructor
  · intro row hrow
    obtain ⟨y, hy, rfl⟩ := List.mem_map.mp hrow
    exact lossCF_nonneg pj cx fp rv mf adeg y
  · intro y hy1 hyl hebt
    obtain ⟨m, rfl⟩ : ∃ m, y = m + 1 := ⟨y - 1, by omega⟩
    have hebt2 : 0 ≤ ebtAt pj cx fp rv mf adeg (m + 1) := hebt
    show lossUsedAt pj cx fp rv mf adeg (m + 1)
      = min (lossCF pj cx fp rv mf adeg m) (0.8 * ebtAt pj cx fp rv mf adeg (m + 1))
    simp only [lossUsedAt]
    rw [if_neg (not_lt.mpr hebt2)]

theorem C5_loss_carryforward_witness :
    0 ≤ (rowAt pjW cxW fpW rvW mfW true 0).Loss_CF_End
    ∧ (rowAt pjW cxW fpW rvW mfW true 1).Loss_Used
        = min ((rowAt pjW cxW fpW rvW mfW true 0).Loss_CF_End)
            (0.8 * (rowAt pjW cxW fpW rvW mfW true 1).EBT) :=
  ⟨(C5_loss_carryforward pjW cxW fpW rvW mfW true).1 _
      (List.mem_map_of_mem _ (by decide)),
    (C5_loss_carryforward pjW cxW fpW rvW mfW true).2 1 le_rfl (by norm_num [pjW])
      (by
        show 0 ≤ ebtAt pjW cxW fpW rvW mfW true 1
        norm_num [ebtAt, ebitdaAt, revTotalAt, revFloorAt, revTollAt, revMerchAt,
          opexAt, royaltyYearlyAt, depreciationAt, depLife, augYear1Active,
          augYear2Active, augCostEach, totalCapexEur, opexEurYear, debtRowAt,
          debtAmount, debtAmountEur, debtBalFp, debtBal, debtPay, annuityPayment,
          debtPfix, principalStep, powerY, energyY, fDeg, degradeFactor,
          operatingDaysPerYear, tollingActive, pjW, cxW, fpW, rvW, mfW])⟩

/-! ### C10: reserve interest is identically zero -/

theorem rowAt_Reserve_Release (pj : ProjectData) (cx : CapexOpex)
    (fp : FinancialParameters) (rv : Revenues) (mf : MunicipalityFees)
    (adeg : Bool) (y : ℕ) :
    (rowAt pj cx fp rv mf adeg y).Reserve_Release = reserveReleaseAt pj cx y := rfl

theorem rowAt_Reserve_Contribution (pj : ProjectData) (cx : CapexOpex)
    (fp : FinancialParameters) (rv : Revenues) (mf : MunicipalityFees)
    (adeg : Bool) (y : ℕ) :
    (rowAt pj cx fp rv mf adeg y).Reserve_Contribution
      = reserveContributionAt pj cx y := rfl

theorem reserveBalRec_contrib_step (target annual : ℚ) (L y : ℕ) :
    reserveBalRec target annual L (y + 1)
      = reserveBalRec target annual L y + reserveContribAmt target annual L (y + 1) := by
  simp only [reserveBalRec, reserveContribAmt, reserveYield, mul_zero, add_zero]
  split_ifs <;> ring

theorem sum_reserveContribAmt (target annual : ℚ) (L : ℕ) :
    ∀ m, ∑ y in Finset.range (m + 1), reserveContribAmt target annual L y
      = reserveBalRec target annual L m := by
  intro m
  induction m with
  | zero => simp [reserveContribAmt, reserveBalRec]
  | succ m ih =>
    rw [Finset.sum_range_succ, ih, ← reserveBalRec_contrib_step]

/-- C10: the reserve yield is fixed at zero in the engine, so `Reserve_Interest`
is `0` in every output row, and the total released reserve never exceeds the
total (sign-flipped) contributions. -/
theorem C10_reserve_interest_zero (pj : ProjectData) (cx : CapexOpex)
    (fp : FinancialParameters) (rv : Revenues) (mf : MunicipalityFees) (adeg : Bool) :
    (∀ row ∈ runFinancialModel pj cx fp rv mf adeg, row.Reserve_Interest = 0)
    ∧ ((runFinancialModel pj cx fp rv mf adeg).map
        (fun row => row.Reserve_Release)).sum
      ≤ ((runFinancialModel pj cx fp rv mf adeg).map
          (fun row => -row.Reserve_Contribution)).sum := by
  constructor
  · intro row hrow
    obtain ⟨y, hy, rfl⟩ := List.mem_map.mp hrow
    show reserveInterestAt pj cx y = 0
    simp [reserveInterestAt, reserveYield]
  · unfold runFinancialModel
    rw [List.map_map, List.map_map, sum_map_range, sum_map_range]
    simp only [Function.comp, rowAt_Reserve_Release, rowAt_Reserve_Contribution]
    by_cases hguard : reserveGuard pj cx
    · have hrel : ∑ y in Finset.range (pj.project_life + 1), reserveReleaseAt pj cx y
          = reserveBalRec (decomCost pj cx) (reserveAnnual pj cx) pj.project_life
              pj.project_life := by
        have hcongr : ∀ y ∈ Finset.range (pj.project_life + 1),
            reserveReleaseAt pj cx y
              = if y = pj.project_life then
                  reserveBalRec (decomCost pj cx) (reserveAnnual pj cx)
                    pj.project_life pj.project_life
                else 0 := by
          intro y hy
          unfold reserveReleaseAt
          by_cases hyl : y = pj.project_life
          · rw [if_pos ⟨hguard, hyl⟩, if_pos hyl]
          · rw [if_neg, if_neg hyl]
            rintro ⟨-, h⟩
            exact hyl h
        rw [Finset.sum_congr rfl hcongr, Finset.sum_ite_eq' (Finset.range _)]
        rw [if_pos (Finset.mem_range.mpr (by omega))]
      have hcon : ∑ y in Finset.range (pj.project_life + 1),
          -reserveContributionAt pj cx y
          = reserveBalRec (decomCost pj cx) (reserveAnnual pj cx) pj.project_life
              pj.project_life := by
        have hcongr : ∀ y ∈ Finset.range (pj.project_life + 1),
            -reserveContributionAt pj cx y
              = reserveContribAmt (decomCost pj cx) (reserveAnnual pj cx)
                  pj.project_life y := by
          intro y hy
          unfold reserveContributionAt
          rw [if_pos hguard, neg_neg]
        rw [Finset.sum_congr rfl hcongr, sum_reserveContribAmt]
      rw [hrel, hcon]
    · have hz : ∀ y ∈ Finset.range (pj.project_life + 1),
          reserveReleaseAt pj cx y = 0 := by
        intro y hy
        unfold reserveReleaseAt
        rw [if_neg]
        rintro ⟨h, -⟩
        exact hguard h
      have hz2 : ∀ y ∈ Finset.range (pj.project_life + 1),
          -reserveContributionAt pj cx y = 0 := by
        intro y hy
        unfold reserveContributionAt
        rw [if_neg hguard]
        exact neg_zero
      rw [Finset.sum_congr rfl hz, Finset.sum_congr rfl hz2]

theorem C10_reserve_interest_zero_witness :
    (rowAt pjW cxW fpW rvW mfW true 2).Reserve_Interest = 0 :=
  (C10_reserve_interest_zero pjW cxW fpW rvW mfW true).1 _
    (List.mem_map_of_mem _ (by decide))

/-! ### C8: discounted-upfront royalty -/

/-- C8: with royalties enabled and discounted-upfront, the year-0 row carries a
single royalty outflow equal to the discounted sum of the yearly royalties
(year 1 un-discounted, exponent `y - 1`), and the royalty column is zero in
every year `y ≥ 1`. -/
theorem C8_royalty_upfront (pj : ProjectData) (cx : CapexOpex)
    (fp : FinancialParameters) (rv : Revenues) (mf : MunicipalityFees) (adeg : Bool)
    (hen : mf.enabled = true) (hup : mf.discounted_upfront = true) :
    (rowAt pj cx fp rv mf adeg 0).Municipality_Royalty_Upfront
      = ∑ yy in Finset.Icc 1 pj.project_life,
          revTotalAt pj rv adeg yy * mf.royalty_pct
            / (1 + mf.discount_rate_wacc) ^ (yy - 1)
    ∧ ∀ y, 1 ≤ y → (rowAt pj cx fp rv mf adeg y).Municipality_Royalty = 0 := by
  constructor
  · show royaltyUpfrontAt pj rv mf adeg 0
      = ∑ yy in Finset.Icc 1 pj.project_life,
          revTotalAt pj rv adeg yy * mf.royalty_pct
            / (1 + mf.discount_rate_wacc) ^ (yy - 1)
    rw [royaltyUpfrontAt, if_pos ⟨hen, hup, rfl⟩, upfrontPv, if_pos ⟨hen, hup⟩]
  · intro y hy
    have hy0 : y ≠ 0 := by omega
    show royaltyYearlyAt pj rv mf adeg y + royaltyUpfrontAt pj rv mf adeg y = 0
    rw [royaltyYearlyAt, if_neg, royaltyUpfrontAt, if_neg]
    · simp
    · rintro ⟨-, -, h0⟩
      exact hy0 h0
    · rintro ⟨-, -, hnot⟩
      exact hnot hup

theorem C8_royalty_upfront_witness :
    (mfW8.enabled = true ∧ mfW8.discounted_upfront = true)
    ∧ (rowAt pjW cxW fpW rvW8 mfW8 true 0).Municipality_Royalty_Upfront
        = ∑ yy in Finset.Icc 1 pjW.project_life,
            revTotalAt pjW rvW8 true yy * mfW8.royalty_pct
              / (1 + mfW8.discount_rate_wacc) ^ (yy - 1)
    ∧ (rowAt pjW cxW fpW rvW8 mfW8 true 0).Municipality_Royalty_Upfront = 10
    ∧ (rowAt pjW cxW fpW rvW8 mfW8 true 1).Municipality_Royalty = 0 := by
  have h := C8_royalty_upfront pjW cxW fpW rvW8 mfW8 true rfl rfl
  refine ⟨⟨rfl, rfl⟩, h.1, ?_, h.2 1 le_rfl⟩
  rw [h.1]
  show ∑ yy in Finset.Icc 1 2, revTotalAt pjW rvW8 true yy * mfW8.royalty_pct
    / (1 + mfW8.discount_rate_wacc) ^ (yy - 1) = 10
  rw [show (Finset.Icc 1 2 : Finset ℕ) = {1, 2} by decide]
  rw [Finset.sum_pair (by norm_num)]
  norm_num [revTotalAt, revFloorAt, revTollAt, revMerchAt, powerY, energyY, fDeg,
    degradeFactor, tollingActive, pjW, rvW8, mfW8]

/-! ### C9: second tolling tranche and booked cycles are dead fields -/

/-- C9: changing the second-tranche tolling fields and the booked-cycles fields
leaves the whole output table unchanged — the engine never reads them. -/
theorem C9_tolling2_fields_unused (pj : ProjectData) (cx : CapexOpex)
    (fp : FinancialParameters) (rv : Revenues) (mf : MunicipalityFees) (adeg : Bool)
    (a : ℚ) (b c : ℕ) (d e : ℚ) :
    runFinancialModel pj cx fp
      { rv with
        tolling_base_2_per_mw_year := a
        tolling_2_start_year := b
        tolling_2_end_year := c
        tolling_2_booked_cycles := d
        tolling_1_booked_cycles := e } mf adeg
      = runFinancialModel pj cx fp rv mf adeg := by
  set rv2 : Revenues :=
    { rv with
      tolling_base_2_per_mw_year := a
      tolling_2_start_year := b
      tolling_2_end_year := c
      tolling_2_booked_cycles := d
      tolling_1_booked_cycles := e } with hrv2
  have hebt : ∀ y, ebtAt pj cx fp rv2 mf adeg y = ebtAt pj cx fp rv mf adeg y :=
    fun _ => rfl
  have hloss : ∀ y, lossCF pj cx fp rv2 mf adeg y = lossCF pj cx fp rv mf adeg y := by
    intro y
    induction y with
    | zero => rfl
    | succ y ih =>
      simp only [lossCF]
      rw [ih, hebt]
  have hused : ∀ y, lossUsedAt pj cx fp rv2 mf adeg y
      = lossUsedAt pj cx fp rv mf adeg y := by
    intro y
    cases y with
    | zero => rfl
    | succ y =>
      simp only [lossUsedAt]
      rw [hloss, hebt]
  have htax : ∀ y, iresTaxableAt pj cx fp rv2 mf adeg y
      = iresTaxableAt pj cx fp rv mf adeg y := by
    intro y
    cases y with
    | zero => rfl
    | succ y =>
      simp only [iresTaxableAt]
      rw [hused, hebt]
  unfold runFinancialModel
  congr 1
  funext y
  simp only [rowAt]
  rw [hloss y, hused y, htax y]
  rfl

/-! ### C7: DSCR and min-DSCR -/

theorem foldl_min_mem (vs : List ℚ) : ∀ v, vs.foldl min v ∈ v :: vs := by
  induction vs with
  | nil =>
    intro v
    simp
  | cons a t ih =>
    intro v
    have h := ih (min v a)
    rw [List.foldl_cons]
    rcases List.mem_cons.mp h with h1 | h1
    · rcases min_choice v a with hm | hm
      · rw [h1, hm]
        exact List.mem_cons_self _ _
      · rw [h1, hm]
        exact List.mem_cons_of_mem _ (List.mem_cons_self _ _)
    · exact List.mem_cons_of_mem _ (List.mem_cons_of_mem _ h1)

theorem foldl_min_le (vs : List ℚ) : ∀ v x, x ∈ v :: vs → vs.foldl min v ≤ x := by
  induction vs with
  | nil =>
    intro v x hx
    simp at hx
    simp [hx]
  | cons a t ih =>
    intro v x hx
    rw [List.foldl_cons]
    rcases List.mem_cons.mp hx with h1 | h1
    · rw [h1]
      exact le_trans (ih _ _ (List.mem_cons_self _ _)) (min_le_left v a)
    · rcases List.mem_cons.mp h1 with h2 | h2
      · rw [h2]
        exact le_trans (ih _ _ (List.mem_cons_self _ _)) (min_le_right v a)
      · exact ih (min v a) x (List.mem_cons_of_mem _ h2)

theorem minDscr_none_iff (rows : List YearRow) :
    minDscr rows = none ↔ ∀ row ∈ rows, row.DSCR = none := by
  unfold minDscr
  rcases h : rows.filterMap (fun row => row.DSCR) with _ | ⟨v, vs⟩
  · simp only [h]
    constructor
    · intro _ row hrow
      exact List.filterMap_eq_nil.mp h row hrow
    · intro _
      trivial
  · simp only [h]
    constructor
    · intro hcontra
      cases hcontra
    · intro hall
      exfalso
      have hv : v ∈ rows.filterMap (fun row => row.DSCR) := by
        rw [h]
        exact List.mem_cons_self v vs
      obtain ⟨row, hrow, hd⟩ := List.mem_filterMap.mp hv
      rw [hall row hrow] at hd
      cases hd

theorem minDscr_some_spec (rows : List YearRow) (m : ℚ)
    (h : minDscr rows = some m) :
    (∃ row ∈ rows, row.DSCR = some m)
    ∧ ∀ row ∈ rows, ∀ v, row.DSCR = some v → m ≤ v := by
  unfold minDscr at h
  rcases hf : rows.filterMap (fun row => row.DSCR) with _ | ⟨v, vs⟩
  · simp only [hf] at h
    exact Option.noConfusion h
  · simp only [hf] at h
    have hm : vs.foldl min v = m := Option.some.inj h
    constructor
    · have hmem : vs.foldl min v ∈ rows.filterMap (fun row => row.DSCR) := by
        rw [hf]
        exact foldl_min_mem vs v
      obtain ⟨row, hrow, hd⟩ := List.mem_filterMap.mp hmem
      refine ⟨row, hrow, ?_⟩
      rw [hd, hm]
    · intro row hrow w hw
      have hwmem : w ∈ rows.filterMap (fun row => row.DSCR) :=
        List.mem_filterMap.mpr ⟨row, hrow, hw⟩
      rw [hf] at hwmem
      rw [← hm]
      exact foldl_min_le vs v w hwmem

/-- C7: per row, DSCR is `CFADS / Debt_Service` (with `CFADS = EBITDA − Taxes`)
exactly when debt service is positive and the explicit `none` marker otherwise;
`min_dscr` is `none` iff no row has a defined DSCR, and when it is `some m`,
`m` is the minimum over the defined DSCR values. -/
theorem C7_dscr_definedness (pj : ProjectData) (cx : CapexOpex)
    (fp : FinancialParameters) (rv : Revenues) (mf : MunicipalityFees) (adeg : Bool) :
    (∀ row ∈ runFinancialModel pj cx fp rv mf adeg,
      row.DSCR = if 0 < row.Debt_Service
        then some ((row.EBITDA - row.Taxes) / row.Debt_Service) else none)
    ∧ (minDscr (runFinancialModel pj cx fp rv mf adeg) = none
        ↔ ∀ row ∈ runFinancialModel pj cx fp rv mf adeg, row.DSCR = none)
    ∧ ∀ m, minDscr (runFinancialModel pj cx fp rv mf adeg) = some m →
        (∃ row ∈ runFinancialModel pj cx fp rv mf adeg, row.DSCR = some m)
        ∧ ∀ row ∈ runFinancialModel pj cx fp rv mf adeg, ∀ v,
            row.DSCR = some v → m ≤ v := by
  refine ⟨?_, minDscr_none_iff _, fun m hm => minDscr_some_spec _ m hm⟩
  intro row hrow
  obtain ⟨y, hy, rfl⟩ := List.mem_map.mp hrow
  rfl

theorem C7_dscr_definedness_witness :
    (rowAt pjW cxW fpW rvW mfW true 1).DSCR
      = if 0 < (rowAt pjW cxW fpW rvW mfW true 1).Debt_Service
        then some (((rowAt pjW cxW fpW rvW mfW true 1).EBITDA
            - (rowAt pjW cxW fpW rvW mfW true 1).Taxes)
          / (rowAt pjW cxW fpW rvW mfW true 1).Debt_Service)
        else none :=
  (C7_dscr_definedness pjW cxW fpW rvW mfW true).1 _
    (List.mem_map_of_mem _ (by decide))

/-! ### C6: IRR diagnostic notes -/

/-- C6 (amended): every diagnostic note of `_irr_first_root` is one of the five
constants `no_cashflows`, `no_sign_change`, `no_bracket_found`,
`multiple_irr_possible`, `bracket_invalid` (the spec's list omits
`no_bracket_found`), and a series with no sign change that is nonempty and not
all-zero yields a null IRR with the `no_sign_change` note. -/
theorem C6_irr_notes (cfs : List ℚ) :
    (irrFirstRoot cfs).2 ∈ ([none, some IrrNote.no_cashflows,
        some IrrNote.no_sign_change, some IrrNote.no_bracket_found,
        some IrrNote.multiple_irr_possible, some IrrNote.bracket_invalid]
      : List (Option IrrNote))
    ∧ (((∀ cf ∈ cfs, 0 ≤ cf) ∨ ∀ cf ∈ cfs, cf ≤ 0) → (∃ cf ∈ cfs, cf ≠ 0) →
        irrFirstRoot cfs = (none, some IrrNote.no_sign_change)) := by
  constructor
  · unfold irrFirstRoot
    repeat' split
    all_goals simp
  · intro hsign hnz
    obtain ⟨cf0, hcf0, hcf0ne⟩ := hnz
    have hne : ¬(cfs.isEmpty = true ∨ cfs.all (fun cf => cf = 0) = true) := by
      rintro (h | h)
      · cases cfs with
        | nil => exact absurd hcf0 (List.not_mem_nil cf0)
        | cons a t => simp at h
      · have h0 := List.all_eq_true.mp h cf0 hcf0
        simp only [decide_eq_true_eq] at h0
        exact hcf0ne h0
    have hnosign : ¬((cfs.any (fun cf => 0 < cf) = true)
        ∧ (cfs.any (fun cf => cf < 0) = true)) := by
      rcases hsign with hpos | hneg
      · rintro ⟨-, hn⟩
        obtain ⟨x, hx, hxlt⟩ := List.any_eq_true.mp hn
        simp only [decide_eq_true_eq] at hxlt
        exact absurd (hpos x hx) (not_le.mpr hxlt)
      · rintro ⟨hp, -⟩
        obtain ⟨x, hx, hxlt⟩ := List.any_eq_true.mp hp
        simp only [decide_eq_true_eq] at hxlt
        exact absurd (hneg x hx) (not_le.mpr hxlt)
    unfold irrFirstRoot
    rw [if_neg hne, if_pos hnosign]

theorem C6_irr_notes_witness :
    ((irrFirstRoot [1, 2]).2 ∈ ([none, some IrrNote.no_cashflows,
        some IrrNote.no_sign_change, some IrrNote.no_bracket_found,
        some IrrNote.multiple_irr_possible, some IrrNote.bracket_invalid]
      : List (Option IrrNote)))
    ∧ irrFirstRoot [1, 2] = (none, some IrrNote.no_sign_change) :=
  ⟨(C6_irr_notes [1, 2]).1,
    (C6_irr_notes [1, 2]).2 (Or.inl (by norm_num))
      ⟨1, by norm_num, by norm_num⟩⟩

/-- The counterexample series for C6: one sign change, but the IRR root lies
far beyond the candidate-rate grid, so no bracket is found. -/
def cexC6 : List ℚ := [-1, 100000]

/-- C6 counterexample: the engine can attach the note `no_bracket_found`,
which is not among the four note strings listed by the spec. -/
theorem C6_note_outside_spec_list :
    (irrFirstRoot cexC6).2 = some IrrNote.no_bracket_found
    ∧ IrrNote.no_bracket_found ∉ [IrrNote.no_cashflows, IrrNote.no_sign_change,
        IrrNote.multiple_irr_possible, IrrNote.bracket_invalid] := by
  constructor
  · have hbr : findBracketsForIrr cexC6 = [] := by
      norm_num [findBracketsForIrr, cexC6, rateGrid, bracketScan, npv,
        List.enum, List.enumFrom]
    have hne : ¬(cexC6.isEmpty = true ∨ cexC6.all (fun cf => cf = 0) = true) := by
      norm_num [cexC6]
    have hsign : (cexC6.any (fun cf => 0 < cf) = true)
        ∧ (cexC6.any (fun cf => cf < 0) = true) := by
      norm_num [cexC6]
    unfold irrFirstRoot
    rw [if_neg hne, if_neg (not_not.mpr hsign), hbr]
  · decide

/-! ### C3: IRR root location and residual -/

theorem bisectLoop_mem (cfs : List ℚ) :
    ∀ (fuel : ℕ) (lo hi a b : ℚ), lo ≤ hi →
      lo ≤ bisectLoop cfs fuel lo hi a b ∧ bisectLoop cfs fuel lo hi a b ≤ hi := by
  intro fuel
  induction fuel with
  | zero =>
    intro lo hi a b h
    constructor <;> simp only [bisectLoop] <;> linarith
  | succ fuel ih =>
    intro lo hi a b h
    simp only [bisectLoop]
    split_ifs with h1 h2
    · constructor <;> linarith
    · have hrec := ih lo ((lo + hi) / 2) a (npv ((lo + hi) / 2) cfs) (by linarith)
      exact ⟨hrec.1, le_trans hrec.2 (by linarith)⟩
    · have hrec := ih ((lo + hi) / 2) hi (npv ((lo + hi) / 2) cfs) b (by linarith)
      exact ⟨le_trans (by linarith) hrec.1, hrec.2⟩

theorem bisectLoop_spec (cfs : List ℚ) :
    ∀ (fuel : ℕ) (lo hi a b : ℚ), lo ≤ hi →
      |npv (bisectLoop cfs fuel lo hi a b) cfs| < tolIrr
      ∨ ∃ lo2 hi2, lo ≤ lo2 ∧ hi2 ≤ hi ∧ hi2 - lo2 = (hi - lo) / 2 ^ fuel
          ∧ bisectLoop cfs fuel lo hi a b = (lo2 + hi2) / 2 := by
  intro fuel
  induction fuel with
  | zero =>
    intro lo hi a b h
    right
    exact ⟨lo, hi, le_rfl, le_rfl, by norm_num, rfl⟩
  | succ fuel ih =>
    intro lo hi a b h
    simp only [bisectLoop]
    split_ifs with h1 h2
    · left
      exact h1
    · rcases ih lo ((lo + hi) / 2) a (npv ((lo + hi) / 2) cfs) (by linarith) with
        hl | ⟨lo2, hi2, ha, hb, hw, heq⟩
      · left
        exact hl
      · right
        refine ⟨lo2, hi2, ha, le_trans hb (by linarith), ?_, heq⟩
        rw [hw, pow_succ]
        have h2f : (2 : ℚ) ^ fuel ≠ 0 := by positivity
        field_simp
        ring
    · rcases ih ((lo + hi) / 2) hi (npv ((lo + hi) / 2) cfs) b (by linarith) with
        hl | ⟨lo2, hi2, ha, hb, hw, heq⟩
      · left
        exact hl
      · right
        refine ⟨lo2, hi2, le_trans (by linarith) ha, hb, ?_, heq⟩
        rw [hw, pow_succ]
        have h2f : (2 : ℚ) ^ fuel ≠ 0 := by positivity
        field_simp
        ring

theorem bisectLoop_dyadic (cfs : List ℚ) :
    ∀ (fuel : ℕ) (lo hi a b : ℚ),
      ∃ k i : ℕ, k ≤ fuel ∧ bisectLoop cfs fuel lo hi a b
          = lo + (2 * (i : ℚ) + 1) * (hi - lo) / 2 ^ (k + 1) := by
  intro fuel
  induction fuel with
  | zero =>
    intro lo hi a b
    refine ⟨0, 0, le_rfl, ?_⟩
    simp only [bisectLoop]
    push_cast
    ring
  | succ fuel ih =>
    intro lo hi a b
    simp only [bisectLoop]
    split_ifs with h1 h2
    · refine ⟨0, 0, by omega, ?_⟩
      push_cast
      ring
    · obtain ⟨k, i, hk, heq⟩ := ih lo ((lo + hi) / 2) a (npv ((lo + hi) / 2) cfs)
      refine ⟨k + 1, i, by omega, ?_⟩
      rw [heq, pow_succ]
      have h2f : (2 : ℚ) ^ (k + 1) ≠ 0 := by positivity
      field_simp
      ring
    · obtain ⟨k, i, hk, heq⟩ := ih ((lo + hi) / 2) hi (npv ((lo + hi) / 2) cfs) b
      refine ⟨k + 1, 2 ^ k + i, by omega, ?_⟩
      rw [heq, pow_succ]
      have h2f : (2 : ℚ) ^ (k + 1) ≠ 0 := by positivity
      push_cast
      field_simp
      ring

theorem bracketScan_spec (cfs : List ℚ) :
    ∀ l : List (ℚ × ℚ), (∀ p ∈ l, p.2 = npv p.1 cfs) →
      List.Chain' (fun p q : ℚ × ℚ => p.1 ≤ q.1) l →
      ∀ bk ∈ bracketScan l, bk.1 ≤ bk.2 ∧ (bk.1 = bk.2 → npv bk.1 cfs = 0) := by
  intro l
  induction l with
  | nil =>
    intro _ _ bk hbk
    simp [bracketScan] at hbk
  | cons p t ih =>
    intro hval hchain bk hbk
    cases t with
    | nil => simp [bracketScan] at hbk
    | cons q s =>
      obtain ⟨r0, v0⟩ := p
      obtain ⟨r1, v1⟩ := q
      have hc := List.chain'_cons.mp hchain
      simp only [bracketScan, List.mem_append] at hbk
      rcases hbk with hbk | hbk
      · have hv0 : v0 = npv r0 cfs := hval (r0, v0) (by simp)
        have hv1 : v1 = npv r1 cfs := hval (r1, v1) (by simp)
        split_ifs at hbk with h0 hlt
        · simp only [List.mem_singleton] at hbk
          rw [hbk]
          exact ⟨le_rfl, fun _ => by rw [← hv0]; exact h0⟩
        · simp only [List.mem_singleton] at hbk
          rw [hbk]
          refine ⟨hc.1, fun heq => ?_⟩
          exfalso
          have heq2 : r0 = r1 := heq
          rw [hv0, hv1, ← heq2] at hlt
          nlinarith
        · simp at hbk
      · exact ih (fun x hx => hval x (List.mem_cons_of_mem _ hx)) hc.2 bk hbk

theorem rateGrid_chain : List.Chain' (fun x y : ℚ => x ≤ y) rateGrid := by
  simp only [rateGrid, List.chain'_cons, List.chain'_singleton, and_true]
  norm_num

/-- C3 (amended): whenever `_irr_first_root` returns a rate, that rate lies in
the first (lowest-rate) bracket found on the candidate grid; the returned value
satisfies the `1e-8` NPV residual when any tolerance exit fires, but when the
120 bisection iterations are exhausted the returned value is only the midpoint
of a final sub-bracket of width `(hi−lo)/2^120`, with no residual guarantee. -/
theorem C3_irr_first_bracket (cfs : List ℚ) (r : ℚ) (note : Option IrrNote)
    (h : irrFirstRoot cfs = (some r, note)) :
    ∃ rLo rHi rest, findBracketsForIrr cfs = (rLo, rHi) :: rest
      ∧ rLo ≤ r ∧ r ≤ rHi
      ∧ (|npv r cfs| < tolIrr
        ∨ ∃ lo2 hi2, rLo ≤ lo2 ∧ hi2 ≤ rHi
            ∧ hi2 - lo2 = (rHi - rLo) / 2 ^ 120 ∧ r = (lo2 + hi2) / 2) := by
  have hkey : ∀ rLo rHi rest, findBracketsForIrr cfs = (rLo, rHi) :: rest →
      rLo ≤ rHi ∧ (rLo = rHi → npv rLo cfs = 0) := by
    intro rLo rHi rest heq
    have hmem : (rLo, rHi) ∈ bracketScan (rateGrid.map (fun q => (q, npv q cfs))) := by
      by_cases hemp : cfs.isEmpty = true
      · rw [findBracketsForIrr, if_pos hemp] at heq
        cases heq
      · rw [findBracketsForIrr, if_neg hemp] at heq
        rw [heq]
        exact List.mem_cons_self _ _
    have hchain : List.Chain' (fun p q : ℚ × ℚ => p.1 ≤ q.1)
        (rateGrid.map (fun q => (q, npv q cfs))) := by
      rw [List.chain'_map]
      exact rateGrid_chain
    exact bracketScan_spec cfs _
      (by
        intro p hp
        obtain ⟨q, hq, hpq⟩ := List.mem_map.mp hp
        rw [← hpq])
      hchain _ hmem
  unfold irrFirstRoot at h
  split_ifs at h with h1 h2
  · simp at h
  · split at h
    · simp at h
    · next rLo rHi rest heq =>
      generalize (if rest.isEmpty = true then (none : Option IrrNote)
        else some IrrNote.multiple_irr_possible) = nt at h
      split_ifs at h with hb1 hb2 hb3 hb4
      · rw [Prod.mk.injEq] at h
        have hr : rLo = r := Option.some.inj h.1
        refine ⟨rLo, rHi, rest, heq, hr ▸ le_rfl, hr ▸ (hkey rLo rHi rest heq).1,
          Or.inl ?_⟩
        rw [← hr, (hkey rLo rHi rest heq).2 hb1, abs_zero]
        norm_num [tolIrr]
      · rw [Prod.mk.injEq] at h
        have hr : rLo = r := Option.some.inj h.1
        refine ⟨rLo, rHi, rest, heq, hr ▸ le_rfl, hr ▸ (hkey rLo rHi rest heq).1,
          Or.inl ?_⟩
        rw [← hr, hb2, abs_zero]
        norm_num [tolIrr]
      · rw [Prod.mk.injEq] at h
        have hr : rHi = r := Option.some.inj h.1
        refine ⟨rLo, rHi, rest, heq, hr ▸ (hkey rLo rHi rest heq).1, hr ▸ le_rfl,
          Or.inl ?_⟩
        rw [← hr, hb3, abs_zero]
        norm_num [tolIrr]
      · simp at h
      · rw [Prod.mk.injEq] at h
        have hr : bisectLoop cfs 120 rLo rHi (npv rLo cfs) (npv rHi cfs) = r :=
          Option.some.inj h.1
        have hlohi := (hkey rLo rHi rest heq).1
        have hmemb := bisectLoop_mem cfs 120 rLo rHi (npv rLo cfs) (npv rHi cfs) hlohi
        have hspec := bisectLoop_spec cfs 120 rLo rHi (npv rLo cfs) (npv rHi cfs) hlohi
        rw [hr] at hmemb hspec
        exact ⟨rLo, rHi, rest, heq, hmemb.1, hmemb.2, hspec⟩
  · simp at h

theorem C3_irr_first_bracket_witness :
    irrFirstRoot [-1, 2] = (some 1, none)
    ∧ ∃ rLo rHi rest, findBracketsForIrr [-1, 2] = (rLo, rHi) :: rest
        ∧ rLo ≤ 1 ∧ (1 : ℚ) ≤ rHi
        ∧ (|npv 1 [-1, 2]| < tolIrr
          ∨ ∃ lo2 hi2, rLo ≤ lo2 ∧ hi2 ≤ rHi
              ∧ hi2 - lo2 = (rHi - rLo) / 2 ^ 120 ∧ (1 : ℚ) = (lo2 + hi2) / 2) := by
  have hbr : findBracketsForIrr [-1, 2] = [(1, 1)] := by
    norm_num [findBracketsForIrr, rateGrid, bracketScan, npv, List.enum,
      List.enumFrom]
  have hne : ¬((([-1, 2] : List ℚ)).isEmpty = true
      ∨ (([-1, 2] : List ℚ)).all (fun cf => cf = 0) = true) := by
    norm_num
  have hsign : ((([-1, 2] : List ℚ)).any (fun cf => 0 < cf) = true)
      ∧ (([-1, 2] : List ℚ)).any (fun cf => cf < 0) = true := by
    norm_num
  have hirr : irrFirstRoot [-1, 2] = (some 1, none) := by
    unfold irrFirstRoot
    rw [if_neg hne, if_neg (not_not.mpr hsign), hbr]
    norm_num
  exact ⟨hirr, C3_irr_first_bracket [-1, 2] 1 none hirr⟩

/-- The C3 counterexample series: one root at rate 0.12 inside the grid bracket
(0.10, 0.15), scaled so large that no bisection midpoint ever meets the `1e-8`
tolerance. -/
def cexC3 : List ℚ := [-(25 * 10 ^ 35), 28 * 10 ^ 35]

/-- C3 counterexample: the engine returns a non-null rate whose NPV residual
exceeds the claimed `1e-8` solver tolerance (the 120 bisection iterations are
exhausted and the midpoint is returned unchecked). -/
theorem C3_residual_exceeds_tolerance :
    ∃ r, (irrFirstRoot cexC3).1 = some r ∧ tolIrr < |npv r cexC3| := by
  have hnpv : ∀ x : ℚ, npv x cexC3 = -(25 * 10 ^ 35) + 28 * 10 ^ 35 / (1 + x) := by
    intro x
    simp [npv, cexC3, List.enum, List.enumFrom, pow_zero, pow_one, div_one]
  have hbr : findBracketsForIrr cexC3 = [(1/10, 3/20)] := by
    norm_num [findBracketsForIrr, cexC3, rateGrid, bracketScan, npv, List.enum,
      List.enumFrom]
  have hne : ¬(cexC3.isEmpty = true ∨ cexC3.all (fun cf => cf = 0) = true) := by
    norm_num [cexC3]
  have hsign : (cexC3.any (fun cf => 0 < cf) = true)
      ∧ cexC3.any (fun cf => cf < 0) = true := by
    norm_num [cexC3]
  refine ⟨bisectLoop cexC3 120 (1/10) (3/20) (npv (1/10) cexC3) (npv (3/20) cexC3),
    ?_, ?_⟩
  · unfold irrFirstRoot
    rw [if_neg hne, if_neg (not_not.mpr hsign), hbr]
    norm_num [hnpv]
  · obtain ⟨k, i, hk, heq⟩ := bisectLoop_dyadic cexC3 120 (1/10) (3/20)
      (npv (1/10) cexC3) (npv (3/20) cexC3)
    have hmb := bisectLoop_mem cexC3 120 (1/10) (3/20)
      (npv (1/10) cexC3) (npv (3/20) cexC3) (by norm_num)
    set r0 := bisectLoop cexC3 120 (1/10) (3/20) (npv (1/10) cexC3)
      (npv (3/20) cexC3) with hr0def
    have hDpos : (0 : ℚ) < 2 ^ (k + 1) := by positivity
    have hDne : ((2 : ℚ)) ^ (k + 1) ≠ 0 := ne_of_gt hDpos
    have hDle : ((2 : ℚ)) ^ (k + 1) ≤ 2 ^ 121 :=
      pow_le_pow_right (by norm_num) (by omega)
    have hspos : (0 : ℚ) < 1 + r0 := by nlinarith [hmb.1]
    have hsne : (1 + r0) ≠ 0 := ne_of_gt hspos
    have hs2 : 1 + r0 ≤ 23 / 20 := by nlinarith [hmb.2]
    rw [hnpv r0]
    have hval : -(25 * 10 ^ 35 : ℚ) + 28 * 10 ^ 35 / (1 + r0)
        = (25 * 10 ^ 33 * (2 * 2 ^ (k + 1) - 5 * (2 * (i : ℚ) + 1)))
            / (2 ^ (k + 1) * (1 + r0)) := by
      rw [heq]
      field_simp
      ring
    rw [hval, abs_div, abs_of_pos (mul_pos hDpos hspos), abs_mul,
      abs_of_pos (show (0 : ℚ) < 25 * 10 ^ 33 by norm_num)]
    have hN : (1 : ℚ) ≤ |2 * 2 ^ (k + 1) - 5 * (2 * (i : ℚ) + 1)| := by
      obtain ⟨P, hP⟩ : ∃ P : ℤ, P = 2 ^ (k + 1) := ⟨_, rfl⟩
      have hne0 : 2 * P - 5 * (2 * (i : ℤ) + 1) ≠ 0 := by omega
      have h1 : 1 ≤ |2 * P - 5 * (2 * (i : ℤ) + 1)| := Int.one_le_abs hne0
      have hcast : ((2 * P - 5 * (2 * (i : ℤ) + 1) : ℤ) : ℚ)
          = 2 * 2 ^ (k + 1) - 5 * (2 * (i : ℚ) + 1) := by
        rw [hP]
        push_cast
        ring
      calc (1 : ℚ) = ((1 : ℤ) : ℚ) := by norm_num
        _ ≤ ((|2 * P - 5 * (2 * (i : ℤ) + 1)| : ℤ) : ℚ) := by exact_mod_cast h1
        _ = |((2 * P - 5 * (2 * (i : ℤ) + 1) : ℤ) : ℚ)| := by
            rw [Int.cast_abs]
        _ = |2 * 2 ^ (k + 1) - 5 * (2 * (i : ℚ) + 1)| := by rw [hcast]
    have hDs : (0 : ℚ) < 2 ^ (k + 1) * (1 + r0) := mul_pos hDpos hspos
    have hDsle : ((2 : ℚ)) ^ (k + 1) * (1 + r0) ≤ 2 ^ 121 * (23 / 20) :=
      mul_le_mul hDle hs2 hspos.le (by positivity)
    calc tolIrr < 25 * 10 ^ 33 / (2 ^ 121 * (23 / 20) : ℚ) := by norm_num [tolIrr]
      _ ≤ 25 * 10 ^ 33 / (2 ^ (k + 1) * (1 + r0)) :=
          div_le_div_of_nonneg_left (by norm_num) hDs hDsle
      _ ≤ 25 * 10 ^ 33 * |2 * 2 ^ (k + 1) - 5 * (2 * (i : ℚ) + 1)|
            / (2 ^ (k + 1) * (1 + r0)) := by
          apply div_le_div_of_nonneg_right ?_ hDs.le
          nlinarith [hN]

end BessModel
